import Mathlib

/-!
Verification of `src/tools/import_bookings_from_gsheet.py` (restaurant-bookings).

The Python source is shallowly embedded: Python strings become `List Char`
(named `Str` below), the sqlite tables become Lean lists of records, and the
importer's functions become pure Lean functions over that state.  Python regex
searches are embedded as explicit position-by-position matchers implementing
the exact backtracking behaviour of the concrete patterns used by the source
(`\d` is modelled as an ASCII digit and `str.strip` strips ASCII whitespace).
Python `float` arithmetic is modelled with exact rationals: the numbers the
importer feeds through `float` are short decimal literals, `round` is Python's
round-half-to-even, and `int(...)` truncates toward zero.  sqlite specifics are
modelled as follows: a `SELECT ... LIMIT 1` without `ORDER BY` returns the
first row in insertion order, `INSERT` appends, `UPDATE ... WHERE id = ?`
rewrites the rows with that primary key (the storage contract makes `id` a
primary key, so the updated row is the row previously fetched), and
`LIKE '%tag%'` is ASCII-case-insensitive substring containment (the
generated import keys contain no LIKE wildcards).
-/

namespace GSheetImport

/-- Python strings are modelled as lists of characters. -/
abbrev Str := List Char

/-- ASCII whitespace, the characters stripped by `str.strip()` on the inputs
this importer sees. -/
def wsChar (c : Char) : Bool :=
  c = ' ' ∨ c = '\t' ∨ c = '\n' ∨ c = '\r' ∨ c = '\x0b' ∨ c = '\x0c'

/-- ASCII decimal digit, the model of `\d` / `[0-9]` for this importer. -/
def digChar (c : Char) : Bool := '0' ≤ c ∧ c ≤ '9'

/-- Remove trailing whitespace (`str.rstrip`). -/
def rstripWs (s : Str) : Str := (s.reverse.dropWhile wsChar).reverse

/-- Python `normalize_text`: `str(value or "").strip()`. -/
def normalizeText (s : Str) : Str := (s.dropWhile wsChar).reverse.dropWhile wsChar |>.reverse

/-- Remove every occurrence of one character (`str.replace(c, "")`). -/
def removeChar (c : Char) (s : Str) : Str := s.filter (fun x => x ≠ c)

/-- Replace every occurrence of one character by another (`str.replace(c, d)`). -/
def replaceChar (c d : Char) (s : Str) : Str := s.map (fun x => if x = c then d else x)

/-- ASCII lower-casing (`str.lower`; the non-ASCII characters used by the
importer are unaffected by Python's lowercasing as well). -/
def lowerChar (c : Char) : Char :=
  if 'A' ≤ c ∧ c ≤ 'Z' then Char.ofNat (c.toNat + 32) else c

/-- Lower-case a string. -/
def lowerStr (s : Str) : Str := s.map lowerChar

/-- Does `pat` occur at the start of `s`? -/
def startsW : Str → Str → Bool
  | [], _ => true
  | _ :: _, [] => false
  | p :: ps, c :: cs => p == c && startsW ps cs

/-- Does `pat` occur anywhere inside `s` (Python's `in` on strings)? -/
def containsSub (pat : Str) : Str → Bool
  | [] => startsW pat []
  | c :: cs => startsW pat (c :: cs) || containsSub pat cs

/-- Numeric value of a digit string (`int` on a string of digits). -/
def digitsToNat (s : Str) : Nat :=
  s.foldl (fun a c => 10 * a + (c.toNat - '0'.toNat)) 0

/-- The character of a single decimal digit. -/
def digitChar (k : Nat) : Char :=
  match k with
  | 0 => '0' | 1 => '1' | 2 => '2' | 3 => '3' | 4 => '4'
  | 5 => '5' | 6 => '6' | 7 => '7' | 8 => '8' | _ => '9'

/-- Digit accumulation with structural fuel (`n + 1` is always enough fuel
for `n`). -/
def natDigitsGo : Nat → Nat → Str → Str
  | 0, _, acc => acc
  | fuel + 1, n, acc =>
    if n < 10 then digitChar n :: acc
    else natDigitsGo fuel (n / 10) (digitChar (n % 10) :: acc)

/-- Decimal rendering of a natural number. -/
def natDigits (n : Nat) : Str := natDigitsGo (n + 1) n []

/-- Zero-padded decimal rendering, Python's `f"{n:0wd}"` for `n ≥ 0`. -/
def padZeros (w : Nat) (n : Nat) : Str :=
  let d := natDigits n
  List.replicate (w - d.length) '0' ++ d

/-- The `YYYY-MM-DD` string built by the date parsers. -/
def fmtDate (y mo d : Nat) : Str :=
  padZeros 4 y ++ ['-'] ++ padZeros 2 mo ++ ['-'] ++ padZeros 2 d

/-- The rational zero (spelled via `mkRat` so that it reduces in the
kernel). -/
def qZero : ℚ := mkRat 0 1

/-- Scale a rational by a natural number. -/
def qMulNat (q : ℚ) (n : Nat) : ℚ := mkRat (q.num * n) q.den

/-- Scale a rational by an integer power of ten. -/
def qMulPow10 (q : ℚ) (e : ℤ) : ℚ :=
  if 0 ≤ e then mkRat (q.num * (10 : ℤ) ^ e.toNat) q.den
  else mkRat q.num (q.den * 10 ^ (-e).toNat)

/-- Truncation toward zero, Python `int(...)` applied to a real value
(`Int.tdiv` rounds toward zero and a rational's denominator is positive). -/
def truncRat (q : ℚ) : ℤ := Int.tdiv q.num q.den

/-- Python `round(...)`: round half to even.  With `f = ⌊q⌋` (via floor
division) the fractional part `q - f` is compared against one half by
cross-multiplying with the positive denominator. -/
def roundHalfEven (q : ℚ) : ℤ :=
  let f : ℤ := Int.fdiv q.num q.den
  let r2 : ℤ := 2 * (q.num - f * q.den)
  if r2 < q.den then f
  else if (q.den : ℤ) < r2 then f + 1
  else if f % 2 = 0 then f else f + 1

/-! ### Regex matchers

Each Python regex used by the importer is embedded as a matcher that attempts
the pattern at the head of a string (with the pattern's exact greedy
backtracking order) plus a generic scan over start positions (`re.search`).
Every matcher also reports the matched length, which `re.sub(..., count=1)`
needs. -/

/-- Scan start positions left to right, returning the first match
(`re.search`). -/
def searchFirst {α : Type} (matchAt : Str → Option α) : Str → Option α
  | [] => matchAt []
  | c :: cs =>
    match matchAt (c :: cs) with
    | some r => some r
    | none => searchFirst matchAt cs

/-- Remove the first (leftmost) match of a pattern
(`re.sub(pat, "", s, count=1)`). -/
def subFirst (matchLenAt : Str → Option Nat) : Str → Str
  | [] => []
  | c :: cs =>
    match matchLenAt (c :: cs) with
    | some n => (c :: cs).drop n
    | none => c :: subFirst matchLenAt cs

/-- A `/` or `-` date separator (slash or dash). -/
def isDateSep (c : Char) : Bool := c = '/' || c = '-'

/-- Greedy `(\d{1,2})` at the end of a pattern: two digits if available, else
one.  Returns the value and the consumed length. -/
def dayGrab : Str → Option (Nat × Nat)
  | a :: b :: _ =>
    if digChar a && digChar b then some (digitsToNat [a, b], 2)
    else if digChar a then some (digitsToNat [a], 1)
    else none
  | [a] => if digChar a then some (digitsToNat [a], 1) else none
  | [] => none

/-- Exactly four digits `(\d{4})` at the head; trailing characters are
unconstrained. -/
def year4Grab : Str → Option Nat
  | a :: b :: c :: d :: _ =>
    if digChar a && digChar b && digChar c && digChar d then
      some (digitsToNat [a, b, c, d])
    else none
  | _ => none

/-- Tail `(\d{1,2}) sep (\d{1,2})` of the year-first pattern: the first
component prefers two digits and backtracks to one if the separator does not
follow. -/
def moDayTail (rest : Str) : Option (Nat × Nat × Nat) :=
  (match rest with
   | e :: f :: sep2 :: r2 =>
     if digChar e && digChar f && isDateSep sep2 then
       (dayGrab r2).map (fun p => (digitsToNat [e, f], p.1, 3 + p.2))
     else none
   | _ => none)
  <|>
  (match rest with
   | e :: sep2 :: r2 =>
     if digChar e && isDateSep sep2 then
       (dayGrab r2).map (fun p => (digitsToNat [e], p.1, 2 + p.2))
     else none
   | _ => none)

/-- Pattern `(\d{4}) sep (\d{1,2}) sep (\d{1,2})` at the head; payload
`(y, mo, d, matchLength)`. -/
def matchYMDAt : Str → Option (Nat × Nat × Nat × Nat)
  | a :: b :: c :: d :: sep :: rest =>
    if digChar a && digChar b && digChar c && digChar d && isDateSep sep then
      (moDayTail rest).map (fun p => (digitsToNat [a, b, c, d], p.1, p.2.1, 5 + p.2.2))
    else none
  | _ => none

/-- Tail `/(\d{4})` after the second component of the day-first pattern. -/
def slashYearTail (rest : Str) : Option (Nat × Nat) :=
  match rest with
  | '/' :: r => (year4Grab r).map (fun y => (y, 5))
  | _ => none

/-- Middle `(\d{1,2})/(\d{4})` of the day-first pattern, with backtracking on
the first component. -/
def bYearTail (rest : Str) : Option (Nat × Nat × Nat) :=
  (match rest with
   | e :: f :: r2 =>
     if digChar e && digChar f then
       (slashYearTail r2).map (fun p => (digitsToNat [e, f], p.1, 2 + p.2))
     else none
   | _ => none)
  <|>
  (match rest with
   | e :: r2 =>
     if digChar e then
       (slashYearTail r2).map (fun p => (digitsToNat [e], p.1, 1 + p.2))
     else none
   | _ => none)

/-- Pattern `(\d{1,2})/(\d{1,2})/(\d{4})` at the head; payload
`(a, b, y, matchLength)`. -/
def matchDMYAt (s : Str) : Option (Nat × Nat × Nat × Nat) :=
  (match s with
   | e :: f :: '/' :: r2 =>
     if digChar e && digChar f then
       (bYearTail r2).map (fun p => (digitsToNat [e, f], p.1, p.2.1, 3 + p.2.2))
     else none
   | _ => none)
  <|>
  (match s with
   | e :: '/' :: r2 =>
     if digChar e then
       (bYearTail r2).map (fun p => (digitsToNat [e], p.1, p.2.1, 2 + p.2.2))
     else none
   | _ => none)

/-- Tail `月(\d{1,2})` of the localized patterns. -/
def cjkDayTail (rest : Str) : Option (Nat × Nat) :=
  match rest with
  | '月' :: r => (dayGrab r).map (fun p => (p.1, 1 + p.2))
  | _ => none

/-- Pattern `(\d{1,2})月(\d{1,2})` at the head; payload `(mo, d, matchLength)`. -/
def matchMDAt (s : Str) : Option (Nat × Nat × Nat) :=
  (match s with
   | e :: f :: r2 =>
     if digChar e && digChar f then
       (cjkDayTail r2).map (fun p => (digitsToNat [e, f], p.1, 2 + p.2))
     else none
   | _ => none)
  <|>
  (match s with
   | e :: r2 =>
     if digChar e then
       (cjkDayTail r2).map (fun p => (digitsToNat [e], p.1, 1 + p.2))
     else none
   | _ => none)

/-- Pattern `(\d{4})年(\d{1,2})月(\d{1,2})` at the head; payload
`(y, mo, d, matchLength)`. -/
def matchCjkAt : Str → Option (Nat × Nat × Nat × Nat)
  | a :: b :: c :: d :: '年' :: rest =>
    if digChar a && digChar b && digChar c && digChar d then
      (matchMDAt rest).map (fun p => (digitsToNat [a, b, c, d], p.1, p.2.1, 5 + p.2.2))
    else none
  | _ => none

/-- Pattern `(\d{1,2})/(\d{1,2})` at the head; payload `(a, b, matchLength)`. -/
def matchDMAt (s : Str) : Option (Nat × Nat × Nat) :=
  (match s with
   | e :: f :: '/' :: r2 =>
     if digChar e && digChar f then
       (dayGrab r2).map (fun p => (digitsToNat [e, f], p.1, 3 + p.2))
     else none
   | _ => none)
  <|>
  (match s with
   | e :: '/' :: r2 =>
     if digChar e then
       (dayGrab r2).map (fun p => (digitsToNat [e], p.1, 2 + p.2))
     else none
   | _ => none)

/-! ### Python float literals -/

/-- Python `float(s)` on a plain numeric literal: optional sign, digits with an
optional fractional part (at least one digit overall), optional exponent.
The exotic accepted forms (`inf`, `nan`, digit underscores) are outside this
model; they do not occur in the importer's data.  The result is exact
(a rational); the decimal literals the importer evaluates are small enough
that Python's binary floats agree with the exact value on every comparison
made here. -/
def parseFloatLit (s : Str) : Option ℚ :=
  let sgnRest : ℤ × Str :=
    match s with
    | '+' :: r => (1, r)
    | '-' :: r => (-1, r)
    | r => (1, r)
  let sgn := sgnRest.1
  let s1 := sgnRest.2
  let ip := s1.takeWhile digChar
  let s2 := s1.dropWhile digChar
  let dotFrac : Bool × Str × Str :=
    match s2 with
    | '.' :: r => (true, r.takeWhile digChar, r.dropWhile digChar)
    | r => (false, [], r)
  let hasDot := dotFrac.1
  let fp := dotFrac.2.1
  let s3 := dotFrac.2.2
  if ip = [] && (!hasDot || fp = []) then none
  else
    let mNum : ℤ := sgn * ((digitsToNat ip : ℤ) * (10 : ℤ) ^ fp.length + (digitsToNat fp : ℤ))
    let mant : ℚ := mkRat mNum (10 ^ fp.length)
    match s3 with
    | [] => some mant
    | e :: r =>
      if e = 'e' || e = 'E' then
        let esgnRest : ℤ × Str :=
          match r with
          | '+' :: t => (1, t)
          | '-' :: t => (-1, t)
          | t => (1, t)
        let ed := esgnRest.2.takeWhile digChar
        let r2 := esgnRest.2.dropWhile digChar
        if ed = [] || r2 ≠ [] then none
        else some (qMulPow10 mant (esgnRest.1 * (digitsToNat ed : ℤ)))
      else none

/-! ### Field normalizers -/

/-- The number group of `([0-9]+(?:[.,][0-9]+)?)k` (or `...m`) when the whole
string matches the pattern (`re.fullmatch`). -/
def kmNum (suffix : Char) (s : Str) : Option Str :=
  let ip := s.takeWhile digChar
  let rest := s.dropWhile digChar
  if ip = [] then none
  else
    match rest with
    | [] => none
    | [c] => if c = suffix then some ip else none
    | sep :: r =>
      if sep = '.' || sep = ',' then
        let fp := r.takeWhile digChar
        let r2 := r.dropWhile digChar
        if fp ≠ [] && r2 = [suffix] then some (ip ++ [sep] ++ fp) else none
      else none

/-- Decimal value of a `k`/`m` number group: a comma with no dot is a decimal
point, otherwise commas are stripped; then `float`.  The `0` fallback mirrors
the source's `except ValueError` (dead for strings produced by `kmNum`). -/
def kmValue (num : Str) : ℚ :=
  let num' :=
    if containsSub [','] num && !containsSub ['.'] num then replaceChar ',' '.' num
    else removeChar ',' num
  ((parseFloatLit num').getD qZero)

/-- `parse_int_metric`: k/m-suffixed counts are scaled and rounded; otherwise
commas are stripped and the value is truncated toward zero; anything
unparseable is 0. -/
def parseIntMetric (raw : Str) : ℤ :=
  let s0 := removeChar '"' (normalizeText raw)
  if s0 = [] then 0
  else
    let s := removeChar ' ' s0
    let lower := lowerStr s
    match kmNum 'k' lower with
    | some num => roundHalfEven (qMulNat (kmValue num) 1000)
    | none =>
      match kmNum 'm' lower with
      | some num => roundHalfEven (qMulNat (kmValue num) 1000000)
      | none =>
        match parseFloatLit (removeChar ',' s) with
        | some q => truncRat q
        | none => 0

/-- Leftmost `([0-9]+(?:\.[0-9]+)?)` decimal group at the head of a string. -/
def decimalAt (s : Str) : Option Str :=
  let ip := s.takeWhile digChar
  if ip = [] then none
  else
    match s.dropWhile digChar with
    | '.' :: r =>
      let fp := r.takeWhile digChar
      if fp = [] then some ip else some (ip ++ ['.'] ++ fp)
    | _ => some ip

/-- `parse_budget_wan`: explicit free markers are 0, otherwise the first
decimal number found after dropping commas (0 if none). -/
def parseBudgetWan (raw : Str) : ℚ :=
  let s := normalizeText raw
  if s = [] then qZero
  else if containsSub ("不收费".toList) s || containsSub ("免费".toList) s then qZero
  else
    match searchFirst decimalAt (removeChar ',' s) with
    | some num => (parseFloatLit num).getD qZero
    | none => qZero

/-- `to_iso_date`: strips the day-suffix glyphs, then tries the year-first,
day-first and localized patterns in order. -/
def toIsoDate (value : Str) (preferDayFirst : Bool := true) : Str :=
  let s0 := normalizeText value
  if s0 = [] then []
  else
    let s := removeChar '日' (removeChar '号' s0)
    match searchFirst matchYMDAt s with
    | some (y, mo, d, _) => fmtDate y mo d
    | none =>
      match searchFirst matchDMYAt s with
      | some (a, b, y, _) =>
        if 12 < a && b ≤ 12 then fmtDate y b a
        else if 12 < b && a ≤ 12 then fmtDate y a b
        else if preferDayFirst then fmtDate y b a
        else fmtDate y a b
      | none =>
        match searchFirst matchCjkAt s with
        | some (y, mo, d, _) => fmtDate y mo d
        | none => []

/-- `parse_day_month_with_year`: a bare `D/M` pair with a supplied year and
the same >12 disambiguation heuristic. -/
def parseDayMonthWithYear (value : Str) (year : Nat) (preferDayFirst : Bool := true) : Str :=
  let s := normalizeText value
  if s = [] then []
  else
    match searchFirst matchDMAt s with
    | none => []
    | some (a, b, _) =>
      if 12 < a && b ≤ 12 then fmtDate year b a
      else if 12 < b && a ≤ 12 then fmtDate year a b
      else if preferDayFirst then fmtDate year b a
      else fmtDate year a b

/-- Python truthiness for the `context_year or fallback_year` idiom: `None`
and `0` are falsy. -/
def orYear (a b : Option Nat) : Option Nat :=
  match a with
  | some y => if y ≠ 0 then some y else b
  | none => b

/-- `parse_post_date`: `to_iso_date` first, else the day/month parser with the
context year (falling back to the supplied fallback year). -/
def parsePostDate (value : Str) (contextYear fallbackYear : Option Nat) : Str :=
  let raw := normalizeText value
  if raw = [] then []
  else
    let iso := toIsoDate raw
    if iso ≠ [] then iso
    else
      match orYear contextYear fallbackYear with
      | none => []
      | some y => if y = 0 then [] else parseDayMonthWithYear raw y true

/-- `extract_month_day`: first `(\d{1,2})月(\d{1,2})` pair. -/
def extractMonthDay (text : Str) : Option (Nat × Nat) :=
  (searchFirst matchMDAt (normalizeText text)).map (fun p => (p.1, p.2.1))

/-- Characters trimmed from the front of the residual window
(`^[\s，,。\.、\-—:：]+`). -/
def leadTrimChar (c : Char) : Bool :=
  wsChar c || c = '，' || c = ',' || c = '。' || c = '.' || c = '、' || c = '-' ||
    c = '—' || c = ':' || c = '：'

/-- Match-length views of the four window-stripping patterns. -/
def ymdLenAt (s : Str) : Option Nat := (matchYMDAt s).map (fun p => p.2.2.2)

/-- Match length of the day-first pattern. -/
def dmyLenAt (s : Str) : Option Nat := (matchDMYAt s).map (fun p => p.2.2.2)

/-- Match length of the localized year pattern. -/
def cjkLenAt (s : Str) : Option Nat := (matchCjkAt s).map (fun p => p.2.2.2)

/-- Match length of the localized month/day pattern. -/
def mdLenAt (s : Str) : Option Nat := (matchMDAt s).map (fun p => p.2.2)

/-- `parse_visit_date_and_window`: extract an ISO date and the residual window
text.  Each of the four date patterns strips at most its own first occurrence,
in the fixed order of the source. -/
def parseVisitDateAndWindow (visitRaw : Str) (contextYear fallbackYear : Option Nat) :
    Str × Str :=
  let raw := normalizeText visitRaw
  if raw = [] then ([], [])
  else
    let iso0 := toIsoDate raw
    let iso :=
      if iso0 ≠ [] then iso0
      else
        match extractMonthDay raw with
        | some (mo, d) =>
          match orYear contextYear fallbackYear with
          | some y => if y ≠ 0 then fmtDate y mo d else []
          | none => []
        | none => []
    if iso = [] then (iso, raw)
    else
      let w := subFirst ymdLenAt raw
      let w := subFirst dmyLenAt w
      let w := subFirst cjkLenAt w
      let w := subFirst mdLenAt w
      let w := removeChar '日' (removeChar '号' w)
      let w := w.dropWhile leadTrimChar
      (iso, normalizeText w)

/-- Matcher for `tiktok\.com/@([^/?#]+)`: the path segment after the handle
marker. -/
def handleAt (s : Str) : Option Str :=
  if startsW ("tiktok.com/@".toList) s then
    let seg := (s.drop 12).takeWhile (fun c => !(c = '/' || c = '?' || c = '#'))
    if seg = [] then none else some seg
  else none

/-- `parse_tiktok_handle`: extract and `@`-prefix the handle from a profile
URL. -/
def parseTiktokHandle (profileUrl : Str) : Str :=
  let s := normalizeText profileUrl
  if s = [] then []
  else
    match searchFirst handleAt s with
    | none => []
    | some seg =>
      let h := (normalizeText seg).dropWhile (fun c => c = '@')
      if h = [] then [] else '@' :: h

/-- `normalize_contact_method`: fold a small set of platform synonyms. -/
def normalizeContactMethod (raw : Str) : Str :=
  let s := normalizeText raw
  if s = [] then []
  else
    let sl := lowerStr s
    if sl = "zalo".toList || sl = "tiktok".toList || sl = "ig".toList ||
        sl = "instagram".toList || sl = "fb".toList || sl = "facebook".toList then
      if sl = "instagram".toList then "ig".toList else sl
    else s

/-! ### Row classifier -/

/-- `normalize_header_cell`: strip, then drop newlines and internal spaces. -/
def normalizeHeaderCell (v : Str) : Str :=
  removeChar ' ' (removeChar '\r' (removeChar '\n' (normalizeText v)))

/-- The comma-joined blob of non-empty normalized header cells. -/
def headerBlob (headerRow : List Str) : Str :=
  List.intercalate [','] ((headerRow.map normalizeHeaderCell).filter (fun h => h ≠ []))

/-- `detect_sheet_mode`: `booking` unless the header looks like a walk-in
sheet. -/
def detectSheetMode (headerRow : List Str) : Str :=
  let blob := headerBlob headerRow
  if containsSub ("到访时间".toList) blob || containsSub ("到访日期".toList) blob then
    "booking".toList
  else if containsSub ("视频发布日期".toList) blob && containsSub ("视频链接".toList) blob &&
      !containsSub ("到访时间".toList) blob then
    "walkin".toList
  else "booking".toList

/-! ### Data model

One record type per sqlite table, with the columns the importer reads or
writes.  `id` is the table's primary key. -/

/-- A row of `influencers`. -/
structure Influencer where
  id : Str
  displayName : Str
  handle : Str
  avatarData : Str
  contactMethod : Str
  contactInfo : Str
  notes : Str
  profileLink : Str
  createdAt : Str
  updatedAt : Str
deriving Repr, DecidableEq

/-- A row of `bookings`. -/
structure Booking where
  id : Str
  storeId : Str
  storeName : Str
  influencerId : Str
  creatorName : Str
  handle : Str
  contactMethod : Str
  contactInfo : Str
  visitDate : Str
  visitWindow : Str
  sourceType : Str
  serviceDetail : Str
  videoRights : Str
  postDate : Str
  videoLink : Str
  budgetMillionVND : ℚ
  notes : Str
  createdAt : Str
deriving Repr, DecidableEq

/-- A row of `traffic_logs`. -/
structure TrafficLog where
  id : Str
  bookingId : Str
  influencerId : Str
  influencerName : Str
  storeName : Str
  sourceType : Str
  postDate : Str
  videoLink : Str
  views : ℤ
  likes : ℤ
  comments : ℤ
  saves : ℤ
  shares : ℤ
  note : Str
  capturedAt : Str
deriving Repr, DecidableEq

/-- The database state the importer manipulates. -/
structure DB where
  influencers : List Influencer
  bookings : List Booking
  trafficLogs : List TrafficLog
deriving Repr, DecidableEq

/-! ### Reconciler -/

/-- `find_influencer_by_handle`: first influencer with exactly this handle;
an empty handle never matches. -/
def findInfluencerByHandle (infs : List Influencer) (handle : Str) : Option Influencer :=
  if handle = [] then none else infs.find? (fun i => i.handle == handle)

/-- A character of the phone-shaped pattern `[0-9\s+()-]`. -/
def phoneChar (c : Char) : Bool :=
  digChar c || wsChar c || c = '+' || c = '(' || c = ')' || c = '-'

/-- `re.fullmatch(r"[0-9\s+()-]{6,}", s)`. -/
def phoneLike (s : Str) : Bool := 6 ≤ s.length && s.all phoneChar

/-- The display name candidate: the handle without its leading `@`s, or the
placeholder name. -/
def candDisplayName (handle : Str) : Str :=
  if handle ≠ [] then handle.dropWhile (fun c => c = '@') else "未命名达人".toList

/-- The `(contactMethod, contactInfo)` pair: a phone-shaped contact is routed
to `contactInfo`. -/
def candContact (contactRaw : Str) : Str × Str :=
  if normalizeContactMethod contactRaw ≠ [] && phoneLike (normalizeContactMethod contactRaw) then
    ([], normalizeContactMethod contactRaw)
  else (normalizeContactMethod contactRaw, [])

/-- `create_or_patch_influencer` on the `influencers` table: patch only
currently-empty fields with non-empty candidates.  The `updates` dict of the
source becomes the six conditions `c1`–`c6`; the sqlite `UPDATE ... WHERE id`
sets exactly those columns on the id-matching rows.  Returns the new table,
the resolved row, the `patched` flag and the `created` flag. -/
def createOrPatchInfluencer (infs : List Influencer)
    (handle contactRaw profileUrl notes now newId : Str) :
    List Influencer × Influencer × Bool × Bool :=
  let dn := candDisplayName handle
  let pl := normalizeText profileUrl
  let nt := normalizeText notes
  let cc := candContact contactRaw
  match findInfluencerByHandle infs handle with
  | some ex =>
    let c1 := (normalizeText ex.displayName).isEmpty && !dn.isEmpty
    let c2 := (normalizeText ex.handle).isEmpty && !handle.isEmpty
    let c3 := (normalizeText ex.contactMethod).isEmpty && !cc.1.isEmpty
    let c4 := (normalizeText ex.contactInfo).isEmpty && !cc.2.isEmpty
    let c5 := (normalizeText ex.profileLink).isEmpty && !pl.isEmpty
    let c6 := (normalizeText ex.notes).isEmpty && !nt.isEmpty
    let changed := c1 || c2 || c3 || c4 || c5 || c6
    if changed then
      let app := fun (i : Influencer) =>
        { i with
            displayName := if c1 then dn else i.displayName
            handle := if c2 then handle else i.handle
            contactMethod := if c3 then cc.1 else i.contactMethod
            contactInfo := if c4 then cc.2 else i.contactInfo
            profileLink := if c5 then pl else i.profileLink
            notes := if c6 then nt else i.notes
            updatedAt := now }
      (infs.map (fun i => if i.id == ex.id then app i else i), app ex, true, false)
    else (infs, ex, false, false)
  | none =>
    let inf : Influencer := ⟨newId, dn, handle, [], cc.1, cc.2, nt, pl, now, now⟩
    (infs ++ [inf], inf, false, true)

/-- `build_import_tag`. -/
def buildImportTag (externalKey : Str) : Str :=
  if normalizeText externalKey ≠ [] then
    "[import:".toList ++ normalizeText externalKey ++ [']']
  else []

/-- The synthetic `import:<key>` video-link placeholder. -/
def importPlaceholder (ext : Str) : Str := "import:".toList ++ ext

/-- sqlite `LIKE '%pat%'`: ASCII-case-insensitive containment (the
generated import keys carry no LIKE wildcards). -/
def likeContains (pat s : Str) : Bool := containsSub (lowerStr pat) (lowerStr s)

/-- The `videoLink = 'import:<key>' OR notes LIKE '%[import:<key>]%'` test of
the import-key resolution query (`ext` is already normalized). -/
def importMatch (ext : Str) (b : Booking) : Bool :=
  b.videoLink == importPlaceholder ext || likeContains (buildImportTag ext) b.notes

/-- Exact video-link equality (`link` is already normalized). -/
def linkEq (link : Str) (b : Booking) : Bool := b.videoLink == link

/-- The fallback-tuple equality test (arguments already normalized). -/
def tupleMatch (h p s t : Str) (b : Booking) : Bool :=
  b.handle == h && b.postDate == p && b.storeId == s && b.sourceType == t

/-- `find_booking_by_video_link`: exact non-empty video-link match. -/
def findBookingByVideoLink (bks : List Booking) (videoLink : Str) : Option Booking :=
  let link := normalizeText videoLink
  if link = [] then none else bks.find? (linkEq link)

/-- `find_booking`: import-tag/placeholder match when an external key is
supplied, then exact video link, then the {handle, post date, store, source
type} tuple. -/
def findBooking (bks : List Booking)
    (videoLink handle postDate storeId sourceType externalKey : Str) : Option Booking :=
  let link := normalizeText videoLink
  let ext := normalizeText externalKey
  let step1 : Option Booking :=
    if ext ≠ [] then bks.find? (importMatch ext) else none
  match step1 with
  | some r => some r
  | none =>
    match (if link ≠ [] then findBookingByVideoLink bks link else none) with
    | some r => some r
    | none =>
      let h := normalizeText handle
      let p := normalizeText postDate
      let s := normalizeText storeId
      let t := normalizeText sourceType
      if h ≠ [] && s ≠ [] && t ≠ [] then
        bks.find? (tupleMatch h p s t)
      else none

/-- The effective source type: one of the two known enum values, defaulting
to the scheduled kind. -/
def effectiveSourceType (sourceType : Str) : Str :=
  if normalizeText sourceType = "预约".toList || normalizeText sourceType = "自来".toList then
    normalizeText sourceType
  else "预约".toList

/-- The tag-appended notes text of `create_or_update_booking`. -/
def tagNotes (tag en0 : Str) : Str :=
  if tag ≠ [] && !containsSub tag en0 then
    (if en0 ≠ [] then normalizeText (en0 ++ '\n' :: tag) else tag)
  else en0

/-- `create_or_update_booking` on the whole database (a store update also
re-stamps linked traffic snapshots).  Returns the new state, the resolved
booking, the `created` flag and the `changed` flag. -/
def createOrUpdateBooking (db : DB) (storeId storeName : Str) (influencerRow : Influencer)
    (visitDate visitWindow serviceDetail videoRights postDate videoLink : Str)
    (budgetWan : ℚ) (notes sourceType externalKey : Str)
    (allowUpdateStore allowUpdateExisting : Bool) (now newId : Str) :
    DB × Booking × Bool × Bool :=
  let est := effectiveSourceType sourceType
  let evl0 := normalizeText videoLink
  let ext := normalizeText externalKey
  let evl := if ext ≠ [] && evl0 = [] then importPlaceholder ext else evl0
  let tag := buildImportTag ext
  let en := tagNotes tag (normalizeText notes)
  match findBooking db.bookings evl (normalizeText influencerRow.handle)
      (normalizeText postDate) storeId est ext with
  | some ex =>
    let storeChanged := allowUpdateStore && ex.storeId ≠ storeId
    let storeApp := fun (b : Booking) =>
      if storeChanged then { b with storeId := storeId, storeName := storeName } else b
    let traffic1 :=
      if storeChanged then
        db.trafficLogs.map (fun t =>
          if t.bookingId == ex.id then { t with storeName := storeName } else t)
      else db.trafficLogs
    let exNotesN := normalizeText ex.notes
    let cTag := tag ≠ [] && !containsSub tag exNotesN
    let cVisitDate := (normalizeText ex.visitDate).isEmpty && !visitDate.isEmpty
    let cVisitWindow := (normalizeText ex.visitWindow).isEmpty && !visitWindow.isEmpty
    let cService := (normalizeText ex.serviceDetail).isEmpty && !(normalizeText serviceDetail).isEmpty
    let cRights := (normalizeText ex.videoRights).isEmpty && !(normalizeText videoRights).isEmpty
    let cPost := (normalizeText ex.postDate).isEmpty && !postDate.isEmpty
    let cSource := est ≠ [] && normalizeText ex.sourceType ≠ est
    let cLink := evl ≠ [] &&
      ((normalizeText ex.videoLink).isEmpty || startsW ("import:".toList) (normalizeText ex.videoLink))
    let cBudget := ex.budgetMillionVND.num = 0 && 0 < budgetWan.num
    let cNotesFill := exNotesN.isEmpty && !en.isEmpty
    let anyUpd := cTag || cVisitDate || cVisitWindow || cService || cRights || cPost ||
      cSource || cLink || cBudget || cNotesFill
    let doUpd := allowUpdateExisting && anyUpd
    let notesVal :=
      if cNotesFill then en
      else if cTag then (if exNotesN ≠ [] then normalizeText (exNotesN ++ '\n' :: tag) else tag)
      else ex.notes
    let updApp := fun (b : Booking) =>
      if doUpd then
        { b with
            visitDate := if cVisitDate then visitDate else b.visitDate
            visitWindow := if cVisitWindow then visitWindow else b.visitWindow
            serviceDetail := if cService then normalizeText serviceDetail else b.serviceDetail
            videoRights := if cRights then normalizeText videoRights else b.videoRights
            postDate := if cPost then postDate else b.postDate
            sourceType := if cSource then est else b.sourceType
            videoLink := if cLink then evl else b.videoLink
            budgetMillionVND := if cBudget then budgetWan else b.budgetMillionVND
            notes := if cTag || cNotesFill then notesVal else b.notes }
      else b
    let changed := storeChanged || doUpd
    let bookings' :=
      if changed then
        db.bookings.map (fun b => if b.id == ex.id then updApp (storeApp b) else b)
      else db.bookings
    ({ db with bookings := bookings', trafficLogs := traffic1 },
     (if changed then updApp (storeApp ex) else ex), false, changed)
  | none =>
    let bk : Booking :=
      ⟨newId, storeId, storeName, influencerRow.id, influencerRow.displayName,
        influencerRow.handle, influencerRow.contactMethod, influencerRow.contactInfo,
        visitDate, visitWindow, est, normalizeText serviceDetail, normalizeText videoRights,
        postDate, evl, budgetWan, en, now⟩
    ({ db with bookings := db.bookings ++ [bk] }, bk, true, false)

/-- `upsert_traffic_for_booking` on the `traffic_logs` table.  Returns the new
table, the `created` flag and the `updated` flag. -/
def upsertTrafficForBooking (trafficLogs : List TrafficLog) (bookingRow : Booking)
    (views likes comments saves shares : ℤ) (note now newId : Str) :
    List TrafficLog × Bool × Bool :=
  if max views (max likes (max comments (max saves shares))) ≤ 0 then
    (trafficLogs, false, false)
  else
    match trafficLogs.find? (fun t => t.bookingId == bookingRow.id) with
    | some ex =>
      let nextP := normalizeText bookingRow.postDate
      let nextV := normalizeText bookingRow.videoLink
      if ex.views = views ∧ ex.likes = likes ∧ ex.comments = comments ∧
          ex.saves = saves ∧ ex.shares = shares ∧
          normalizeText ex.postDate = nextP ∧ normalizeText ex.videoLink = nextV ∧
          normalizeText ex.note = normalizeText note then
        (trafficLogs, false, false)
      else
        let app := fun (t : TrafficLog) =>
          { t with
            views := views, likes := likes, comments := comments, saves := saves,
            shares := shares, postDate := nextP, videoLink := nextV, note := note,
            capturedAt := now }
        (trafficLogs.map (fun t => if t.id == ex.id then app t else t), false, true)
    | none =>
      let t : TrafficLog :=
        ⟨newId, bookingRow.id, bookingRow.influencerId, bookingRow.creatorName,
          bookingRow.storeName, bookingRow.sourceType, bookingRow.postDate,
          bookingRow.videoLink, views, likes, comments, saves, shares, note, now⟩
      (trafficLogs ++ [t], true, false)

/-! ### Row extractor and import driver

The csv fetch/parse layer is an external collaborator; the driver is modelled
from the point where `read_rows` yields lists of cells.  `read_rows` pads or
truncates every row to exactly 15 columns. -/

/-- A typed full-booking row (`ImportRow` dataclass). -/
structure ImportRow where
  seq : Str
  profileUrl : Str
  contactRaw : Str
  priceRaw : Str
  videoRights : Str
  serviceDetail : Str
  visitRaw : Str
  postDateRaw : Str
  videoLink : Str
  viewsRaw : Str
  likesRaw : Str
  commentsRaw : Str
  savesRaw : Str
  sharesRaw : Str
deriving Repr, DecidableEq

/-- `read_rows` row shaping: pad with empty cells, keep the first 15. -/
def pad15 (row : List Str) : List Str := (row ++ List.replicate 15 []).take 15

/-- Indexing into a padded row. -/
def cellAt (row : List Str) (i : Nat) : Str := row.getD i []

/-- The header-row test of `extract_import_rows`. -/
def isHeaderFirst (first : Str) : Bool :=
  first ≠ [] && (containsSub ("序号".toList) first || lowerStr first = "no".toList ||
    lowerStr first = "index".toList)

/-- `re.fullmatch(r"\d+", s)`: a non-empty all-digit string. -/
def isDigitsOnly (s : Str) : Bool := s ≠ [] && s.all digChar

/-- State carried by `extract_import_rows` across rows. -/
structure ExtractAcc where
  ctx : Option Nat
  mode : Option Str
  out : List (Option Nat × ImportRow)
deriving Repr, DecidableEq

/-- One row of `extract_import_rows`: header rows set the sheet mode, rows
with an empty first cell may update the context year, rows with a pure
integer first cell are data rows, and everything else is skipped. -/
def extractStep (acc : ExtractAcc) (row0 : List Str) : ExtractAcc :=
  let row := pad15 row0
  let first := normalizeText (cellAt row 0)
  if isHeaderFirst first then
    { acc with mode := some (detectSheetMode row) }
  else if first = [] then
    let iso := toIsoDate (normalizeText (cellAt row 1))
    if iso ≠ [] then { acc with ctx := some (digitsToNat (iso.take 4)) } else acc
  else if !isDigitsOnly first then acc
  else
    let activeMode := acc.mode.getD ("booking".toList)
    let item : ImportRow :=
      if activeMode = "walkin".toList then
        ⟨first, cellAt row 1, [], [], [], [], cellAt row 5, cellAt row 3, cellAt row 4,
          cellAt row 10, cellAt row 11, cellAt row 12, cellAt row 13, cellAt row 14⟩
      else
        ⟨first, cellAt row 1, cellAt row 3, cellAt row 4, cellAt row 5, cellAt row 6,
          cellAt row 7, cellAt row 8, cellAt row 9,
          cellAt row 10, cellAt row 11, cellAt row 12, cellAt row 13, cellAt row 14⟩
    { acc with out := acc.out ++ [(acc.ctx, item)] }

/-- `extract_import_rows`: the typed data rows, each with the context year in
effect. -/
def extractImportRows (rows : List (List Str)) : List (Option Nat × ImportRow) :=
  (rows.foldl extractStep ⟨none, none, []⟩).out

/-- The driver's one-time mode probe accepts a wider set of header-shaped
first cells than the extractor. -/
def probeFirstMatches (first : Str) : Bool :=
  first ≠ [] && (containsSub ("序号".toList) first || lowerStr first = "no".toList ||
    lowerStr first = "index".toList || containsSub ("ID".toList) first)

/-- The sheet mode used by the driver (`sheet_mode` in `main`). -/
def probeSheetMode (rows : List (List Str)) : Str :=
  match rows.find? (fun r => probeFirstMatches (normalizeText (cellAt (pad15 r) 0))) with
  | some r => detectSheetMode (pad15 r)
  | none => "booking".toList

/-- The run-summary counters. -/
structure Stats where
  influencersCreated : Nat
  influencersPatched : Nat
  bookingsCreated : Nat
  bookingsUpdated : Nat
  bookingsSkipped : Nat
  trafficCreated : Nat
  trafficUpdated : Nat
deriving Repr, DecidableEq

/-- All counters at zero. -/
def zeroStats : Stats := ⟨0, 0, 0, 0, 0, 0, 0⟩

/-- The driver's run arguments (CLI flags and resolved store). -/
structure Params where
  gid : Str
  storeId : Str
  storeName : Str
  sourceTypeArg : Str
  updateStore : Bool
  updateExisting : Bool
  now : Str
deriving Repr, DecidableEq

/-- Mutable driver state: database, counters, id-generation counter
(`generate_id`'s random suffixes are modelled by a counter; the importer
never branches on an id's spelling). -/
structure RState where
  db : DB
  stats : Stats
  ctr : Nat
deriving Repr, DecidableEq

/-- Fresh id with an entity prefix. -/
def genId (pre : Str) (n : Nat) : Str := pre ++ '-' :: Nat.toDigits 10 n

/-- The parsed handle of an extracted row. -/
def rowHandle (x : Option Nat × ImportRow) : Str := parseTiktokHandle x.2.profileUrl

/-- The derived post date of an extracted row (the driver passes the context
year as both context and fallback). -/
def rowPostDate (x : Option Nat × ImportRow) : Str := parsePostDate x.2.postDateRaw x.1 x.1

/-- The (visit date, visit window, notes, budget) quadruple the driver derives
for a row, depending on the sheet mode. -/
def rowVwnb (sheetMode : Str) (x : Option Nat × ImportRow) : Str × Str × Str × ℚ :=
  if sheetMode = "walkin".toList then
    ([], [], normalizeText x.2.visitRaw, qZero)
  else
    let postDate := rowPostDate x
    let fallbackYear := if postDate ≠ [] then some (digitsToNat (postDate.take 4)) else x.1
    let vw := parseVisitDateAndWindow x.2.visitRaw x.1 fallbackYear
    (vw.1, vw.2, normalizeText x.2.visitRaw, parseBudgetWan x.2.priceRaw)

/-- The source-type argument the driver passes for a row. -/
def rowSourceTypeArg (P : Params) (sheetMode : Str) : Str :=
  if P.sourceTypeArg = "auto".toList then
    (if sheetMode = "walkin".toList then "自来".toList else "预约".toList)
  else P.sourceTypeArg

/-- The external key the driver passes for a row. -/
def rowExternalKey (P : Params) (sheetMode : Str) (x : Option Nat × ImportRow) : Str :=
  if sheetMode = "walkin".toList then
    "walkin:".toList ++ normalizeText P.gid ++ ':' :: normalizeText x.2.seq
  else []

/-- The body of the driver's per-record loop: resolve the influencer, derive
dates/source/key, reconcile the booking, reconcile traffic, count. -/
def reconcileRow (P : Params) (sheetMode : Str) (st : RState)
    (x : Option Nat × ImportRow) : RState :=
  let rI :=
    createOrPatchInfluencer st.db.influencers (rowHandle x) x.2.contactRaw x.2.profileUrl []
      P.now (genId ("inf".toList) st.ctr)
  let stats1 :=
    if rI.2.2.2 then { st.stats with influencersCreated := st.stats.influencersCreated + 1 }
    else if rI.2.2.1 then { st.stats with influencersPatched := st.stats.influencersPatched + 1 }
    else st.stats
  let rB :=
    createOrUpdateBooking { st.db with influencers := rI.1 } P.storeId P.storeName rI.2.1
      (rowVwnb sheetMode x).1 (rowVwnb sheetMode x).2.1 x.2.serviceDetail x.2.videoRights
      (rowPostDate x) x.2.videoLink (rowVwnb sheetMode x).2.2.2 (rowVwnb sheetMode x).2.2.1
      (rowSourceTypeArg P sheetMode) (rowExternalKey P sheetMode x)
      P.updateStore P.updateExisting P.now (genId ("bk".toList) (st.ctr + 1))
  let stats2 :=
    if rB.2.2.1 then { stats1 with bookingsCreated := stats1.bookingsCreated + 1 }
    else if rB.2.2.2 then { stats1 with bookingsUpdated := stats1.bookingsUpdated + 1 }
    else { stats1 with bookingsSkipped := stats1.bookingsSkipped + 1 }
  let rT :=
    upsertTrafficForBooking rB.1.trafficLogs rB.2.1
      (parseIntMetric x.2.viewsRaw) (parseIntMetric x.2.likesRaw)
      (parseIntMetric x.2.commentsRaw) (parseIntMetric x.2.savesRaw)
      (parseIntMetric x.2.sharesRaw) [] P.now (genId ("traffic".toList) (st.ctr + 2))
  let stats3 :=
    if rT.2.1 then { stats2 with trafficCreated := stats2.trafficCreated + 1 }
    else if rT.2.2 then { stats2 with trafficUpdated := stats2.trafficUpdated + 1 }
    else stats2
  ⟨{ rB.1 with trafficLogs := rT.1 }, stats3, st.ctr + 3⟩

/-- One full import run (the driver's transactional loop, without
`--only-influencers`): probe the sheet mode once, then reconcile every
extracted record, starting from fresh counters. -/
def runImport (P : Params) (rows : List (List Str)) (db : DB) (ctr : Nat) : RState :=
  let sheetMode := probeSheetMode rows
  (extractImportRows rows).foldl (reconcileRow P sheetMode) ⟨db, zeroStats, ctr⟩

/-! ### Derived definitions used by the verification -/

/-- Modelled from the claim's words (C9): the residual window with at most ONE
date-shaped substring removed — the first occurrence of the first pattern, in
the fixed list order, that matches at all — followed by the glyph strip and
leading-punctuation trim.  Compared against the source's behaviour. -/
def windowSingleRemoval (raw : Str) : Str :=
  let w :=
    if (searchFirst matchYMDAt raw).isSome then subFirst ymdLenAt raw
    else if (searchFirst matchDMYAt raw).isSome then subFirst dmyLenAt raw
    else if (searchFirst matchCjkAt raw).isSome then subFirst cjkLenAt raw
    else subFirst mdLenAt raw
  normalizeText ((removeChar '日' (removeChar '号' w)).dropWhile leadTrimChar)

/-- The residual-window pipeline as the amended claim words it: each of the
four date patterns removes at most its own first occurrence, in the fixed
source order, then day-suffix glyphs are dropped and leading punctuation and
whitespace trimmed. -/
def windowStrip (raw : Str) : Str :=
  normalizeText ((removeChar '日' (removeChar '号'
    (subFirst mdLenAt (subFirst cjkLenAt (subFirst dmyLenAt (subFirst ymdLenAt raw)))))).dropWhile
      leadTrimChar)

/-- The booking lookup a row performs, as a function of the row and the run
parameters only (the driver feeds `create_or_update_booking` the resolved
influencer, whose handle equals the row's parsed handle). -/
def rowFind (P : Params) (sheetMode : Str) (bks : List Booking)
    (x : Option Nat × ImportRow) : Option Booking :=
  let est := effectiveSourceType (rowSourceTypeArg P sheetMode)
  let evl0 := normalizeText x.2.videoLink
  let ext := normalizeText (rowExternalKey P sheetMode x)
  let evl := if ext ≠ [] && evl0 = [] then importPlaceholder ext else evl0
  findBooking bks evl (normalizeText (rowHandle x)) (normalizeText (rowPostDate x))
    P.storeId est ext

/-- Does the influencer table hold a row with exactly this handle? -/
def hasHandle (infs : List Influencer) (h : Str) : Bool :=
  infs.any (fun i => i.handle == h)

/-- The booking row `create_or_update_booking` inserts when the lookup finds
nothing (the `INSERT` dict of the source, spelled as a standalone value). -/
def newBooking (storeId storeName : Str) (influencerRow : Influencer)
    (visitDate visitWindow serviceDetail videoRights postDate videoLink : Str)
    (budgetWan : ℚ) (notes sourceType externalKey now newId : Str) : Booking :=
  ⟨newId, storeId, storeName, influencerRow.id, influencerRow.displayName,
    influencerRow.handle, influencerRow.contactMethod, influencerRow.contactInfo,
    visitDate, visitWindow, effectiveSourceType sourceType,
    normalizeText serviceDetail, normalizeText videoRights, postDate,
    (if normalizeText externalKey ≠ [] && normalizeText videoLink = [] then
      importPlaceholder (normalizeText externalKey)
    else normalizeText videoLink), budgetWan,
    tagNotes (buildImportTag (normalizeText externalKey)) (normalizeText notes), now⟩

/-- Run parameters of the idempotence counterexamples: store `s`, sheet gid
`g`, automatic source type, no update flags. -/
def cexParams : Params :=
  ⟨"g".toList, "s".toList, "S".toList, "auto".toList, false, false, "t1".toList⟩

/-- A one-data-row source whose profile cell is empty (no parseable handle). -/
def cexRowsNoHandle : List (List Str) := [["1".toList]]

/-- A walk-in source in which two data rows share the sequence number `1`
(hence the same generated external key), with every profile URL parseable. -/
def cexRowsSharedKey : List (List Str) :=
  [["序号".toList, "ID".toList, "图片".toList, "视频发布日期".toList, "视频链接".toList],
   ["1".toList, "https://tiktok.com/@a".toList, [], [], "L".toList, [], [], [], [], [],
     "1".toList, "0".toList, "0".toList, "0".toList, "0".toList],
   ["1".toList, "https://tiktok.com/@b".toList, [], [], [], [], [], [], [], [],
     "0".toList, "0".toList, "0".toList, "0".toList, "0".toList]]

/-- A pre-existing booking whose video link `L` matches the first shared-key
row. -/
def cexBookingL : Booking :=
  ⟨"bk-x".toList, "s".toList, "S".toList, [], [], "@x".toList, [], [], [], [],
    "预约".toList, [], [], [], "L".toList, qZero, [], []⟩

/-- An influencer with non-empty notes, used to witness the merge policy. -/
def infWitness : Influencer :=
  ⟨"i1".toList, "Name".toList, "@a".toList, [], [], [], "keep these notes".toList, [],
    "t0".toList, "t0".toList⟩

/-- A booking used to witness the traffic no-op policy. -/
def bkWitness : Booking :=
  ⟨"bk1".toList, "s".toList, "S".toList, "i1".toList, "N".toList, "@a".toList, [], [],
    [], [], "预约".toList, [], [], "2023-01-01".toList, "L".toList, qZero, [], "t0".toList⟩

/-- An existing snapshot for `bkWitness` with the same metrics an incoming
row will carry. -/
def trWitness : TrafficLog :=
  ⟨"tr1".toList, "bk1".toList, "i1".toList, "N".toList, "S".toList, "预约".toList,
    "2023-01-01".toList, "L".toList, 5, 1, 0, 0, 0, [], "t0".toList⟩

/-- A booking resolvable only through the synthetic `import:k` placeholder,
whose notes do not carry the `[import:k]` tag. -/
def bkTagCex : Booking :=
  ⟨"b1".toList, "s".toList, "S".toList, [], [], "@h".toList, [], [], [], [],
    "预约".toList, [], [], [], "import:k".toList, qZero, "hello".toList, []⟩

/-- A contentless influencer row for the booking-merge fixtures. -/
def infPlain : Influencer := ⟨"i9".toList, [], [], [], [], [], [], [], [], []⟩

/-! ### String lemmas -/

theorem startsW_append (p r : Str) : startsW p (p ++ r) = true := by
  induction p with
  | nil => rfl
  | cons a ps ih => simpa [startsW] using ih

theorem containsSub_cons (pat : Str) (c : Char) (s : Str) (h : containsSub pat s = true) :
    containsSub pat (c :: s) = true := by
  simp [containsSub, h]

theorem containsSub_append_left (pat x s : Str) (h : containsSub pat s = true) :
    containsSub pat (x ++ s) = true := by
  induction x with
  | nil => exact h
  | cons c cs ih => exact containsSub_cons pat c (cs ++ s) ih

theorem containsSub_append_self (p x : Str) : containsSub p (x ++ p) = true := by
  induction x with
  | nil =>
    have h := startsW_append p []
    rw [List.append_nil] at h
    cases p with
    | nil => rfl
    | cons c cs => simp only [List.nil_append, containsSub, h, Bool.true_or]
  | cons c cs ih => exact containsSub_cons p c (cs ++ p) ih

theorem startsW_map (f : Char → Char) (p s : Str) (h : startsW p s = true) :
    startsW (p.map f) (s.map f) = true := by
  induction p generalizing s with
  | nil => rfl
  | cons a ps ih =>
    cases s with
    | nil => simp [startsW] at h
    | cons c cs =>
      simp only [startsW, Bool.and_eq_true, beq_iff_eq] at h
      simp only [List.map_cons, startsW, Bool.and_eq_true, beq_iff_eq]
      exact ⟨by rw [h.1], ih cs h.2⟩

theorem containsSub_map (f : Char → Char) (p s : Str) (h : containsSub p s = true) :
    containsSub (p.map f) (s.map f) = true := by
  induction s with
  | nil =>
    simp only [containsSub] at h ⊢
    cases p with
    | nil => rfl
    | cons a ps => simp [startsW] at h
  | cons c cs ih =>
    simp only [containsSub, Bool.or_eq_true] at h
    rcases h with h | h
    · have h2 := startsW_map f p (c :: cs) h
      simp only [List.map_cons] at h2
      simp [containsSub, h2]
    · have h2 := ih h
      simp [List.map_cons, containsSub, h2]

theorem dropWhile_eq_self_of_head? (p : Char → Bool) (l : Str)
    (h : ∀ a, l.head? = some a → p a = false) : l.dropWhile p = l := by
  cases l with
  | nil => rfl
  | cons c cs => simp [List.dropWhile_cons, h c rfl]

theorem head?_dropWhile_not (p : Char → Bool) (l : Str) :
    ∀ a, (l.dropWhile p).head? = some a → p a = false := by
  induction l with
  | nil => intro a h; simp at h
  | cons c cs ih =>
    intro a h
    rw [List.dropWhile_cons] at h
    by_cases hc : p c
    · rw [if_pos hc] at h; exact ih a h
    · rw [if_neg hc] at h
      simp only [List.head?_cons, Option.some.injEq] at h
      subst h
      exact Bool.eq_false_iff.mpr hc

theorem getLast?_cons_of_ne_nil (a : Char) (l : Str) (h : l ≠ []) :
    (a :: l).getLast? = l.getLast? := by
  cases l with
  | nil => exact absurd rfl h
  | cons b bs => exact List.getLast?_cons_cons

theorem dropWhile_ne_nil_sub (p : Char → Bool) (l : Str) (h : l.dropWhile p ≠ []) : l ≠ [] := by
  intro hl; subst hl; exact h rfl

theorem getLast?_dropWhile (p : Char → Bool) (l : Str) (h : l.dropWhile p ≠ []) :
    (l.dropWhile p).getLast? = l.getLast? := by
  induction l with
  | nil => exact absurd rfl h
  | cons c cs ih =>
    rw [List.dropWhile_cons]
    by_cases hc : p c
    · rw [if_pos hc]
      rw [List.dropWhile_cons, if_pos hc] at h
      rw [ih h, getLast?_cons_of_ne_nil c cs (dropWhile_ne_nil_sub p cs h)]
    · rw [if_neg hc]

theorem mem_of_getLast? {l : Str} {a : Char} (h : l.getLast? = some a) : a ∈ l := by
  induction l with
  | nil => simp at h
  | cons c cs ih =>
    cases cs with
    | nil =>
      simp only [List.getLast?_singleton, Option.some.injEq] at h
      simp [h]
    | cons b bs =>
      rw [List.getLast?_cons_cons] at h
      exact List.mem_cons_of_mem c (ih h)

theorem normalizeText_def (s : Str) :
    normalizeText s = ((s.dropWhile wsChar).reverse.dropWhile wsChar).reverse := rfl

theorem normalizeText_head?_not_ws (s : Str) :
    ∀ a, (normalizeText s).head? = some a → wsChar a = false := by
  intro a h
  rw [normalizeText_def, List.head?_reverse] at h
  set m := (s.dropWhile wsChar).reverse.dropWhile wsChar with hm
  have hmne : m ≠ [] := by
    intro hnil; rw [hnil] at h; simp at h
  rw [getLast?_dropWhile wsChar _ (by rw [← hm]; exact hmne)] at h
  rw [List.getLast?_reverse] at h
  exact head?_dropWhile_not wsChar s a h

theorem normalizeText_getLast?_not_ws (s : Str) :
    ∀ a, (normalizeText s).getLast? = some a → wsChar a = false := by
  intro a h
  rw [normalizeText_def, List.getLast?_reverse] at h
  exact head?_dropWhile_not wsChar _ a h

theorem normalizeText_eq_self_of (s : Str)
    (hh : ∀ a, s.head? = some a → wsChar a = false)
    (hl : ∀ a, s.getLast? = some a → wsChar a = false) : normalizeText s = s := by
  rw [normalizeText_def]
  rw [dropWhile_eq_self_of_head? wsChar s hh]
  rw [dropWhile_eq_self_of_head? wsChar s.reverse
    (by intro a ha; rw [List.head?_reverse] at ha; exact hl a ha)]
  exact List.reverse_reverse s

theorem normalizeText_idem (s : Str) : normalizeText (normalizeText s) = normalizeText s :=
  normalizeText_eq_self_of _ (normalizeText_head?_not_ws s) (normalizeText_getLast?_not_ws s)

theorem normalizeText_eq_self_of_all (s : Str) (h : ∀ c ∈ s, wsChar c = false) :
    normalizeText s = s :=
  normalizeText_eq_self_of s
    (fun a ha => h a (List.mem_of_mem_head? ha))
    (fun a ha => h a (mem_of_getLast? ha))

theorem normalizeText_ne_nil_of_getLast (s : Str) (b : Char)
    (hb : s.getLast? = some b) (hws : wsChar b = false) : normalizeText s ≠ [] := by
  intro hnil
  rw [normalizeText_def] at hnil
  have h1 : (s.dropWhile wsChar).reverse.dropWhile wsChar = [] := by
    have := congrArg List.reverse hnil
    simpa using this
  rw [List.dropWhile_eq_nil_iff] at h1
  by_cases h2 : s.dropWhile wsChar = []
  · rw [List.dropWhile_eq_nil_iff] at h2
    exact absurd (h2 b (mem_of_getLast? hb)) (by simp [hws])
  · have h3 : (s.dropWhile wsChar).getLast? = some b := by
      rw [getLast?_dropWhile wsChar s h2]; exact hb
    have h4 : b ∈ (s.dropWhile wsChar).reverse := by
      rw [List.mem_reverse]; exact mem_of_getLast? h3
    exact absurd (h1 b h4) (by simp [hws])

theorem normalizeText_ne_nil (s : Str) (h : normalizeText s ≠ []) :
    ∃ b, (normalizeText s).getLast? = some b ∧ wsChar b = false := by
  cases hg : (normalizeText s).getLast? with
  | none => exact absurd (List.getLast?_eq_none_iff.mp hg) h
  | some b => exact ⟨b, rfl, normalizeText_getLast?_not_ws s b hg⟩

/-! ### Normalization facts about parser outputs -/

theorem digitChar_not_ws (k : Nat) : wsChar (digitChar k) = false := by
  rcases k with _ | _ | _ | _ | _ | _ | _ | _ | _ | k <;> rfl

theorem natDigitsGo_mem_not_ws (fuel : Nat) : ∀ (n : Nat) (acc : Str),
    (∀ c ∈ acc, wsChar c = false) → ∀ c ∈ natDigitsGo fuel n acc, wsChar c = false := by
  induction fuel with
  | zero => intro n acc hacc; exact hacc
  | succ fuel ih =>
    intro n acc hacc c hc
    rw [natDigitsGo] at hc
    by_cases hn : n < 10
    · rw [if_pos hn] at hc
      rcases List.mem_cons.mp hc with h | h
      · rw [h]; exact digitChar_not_ws n
      · exact hacc c h
    · rw [if_neg hn] at hc
      refine ih (n / 10) (digitChar (n % 10) :: acc) ?_ c hc
      intro x hx
      rcases List.mem_cons.mp hx with h | h
      · rw [h]; exact digitChar_not_ws (n % 10)
      · exact hacc x h

theorem padZeros_mem_not_ws (w n : Nat) : ∀ c ∈ padZeros w n, wsChar c = false := by
  intro c hc
  unfold padZeros at hc
  rcases List.mem_append.mp hc with h | h
  · rw [List.eq_of_mem_replicate h]; rfl
  · exact natDigitsGo_mem_not_ws _ _ [] (by intro x hx; simp at hx) c h

theorem fmtDate_mem_not_ws (y mo d : Nat) : ∀ c ∈ fmtDate y mo d, wsChar c = false := by
  intro c hc
  unfold fmtDate at hc
  rcases List.mem_append.mp hc with h | h
  swap
  · exact padZeros_mem_not_ws 2 d c h
  rcases List.mem_append.mp h with h | h
  swap
  · rw [List.mem_singleton] at h; rw [h]; rfl
  rcases List.mem_append.mp h with h | h
  swap
  · exact padZeros_mem_not_ws 2 mo c h
  rcases List.mem_append.mp h with h | h
  · exact padZeros_mem_not_ws 4 y c h
  · rw [List.mem_singleton] at h; rw [h]; rfl

theorem normalizeText_fmtDate (y mo d : Nat) :
    normalizeText (fmtDate y mo d) = fmtDate y mo d :=
  normalizeText_eq_self_of_all _ (fmtDate_mem_not_ws y mo d)

theorem fmtDate_ne_nil (y mo d : Nat) : fmtDate y mo d ≠ [] := by
  simp [fmtDate, padZeros]

theorem norm_of_dateShape (s : Str) (h : s = [] ∨ ∃ y mo d, s = fmtDate y mo d) :
    normalizeText s = s := by
  rcases h with h | ⟨y, mo, d, h⟩
  · rw [h]; rfl
  · rw [h]; exact normalizeText_fmtDate y mo d

theorem toIsoDate_shape (v : Str) (flag : Bool) :
    toIsoDate v flag = [] ∨ ∃ y mo d, toIsoDate v flag = fmtDate y mo d := by
  simp only [toIsoDate]
  repeat' split
  all_goals first
    | exact Or.inl rfl
    | exact Or.inr ⟨_, _, _, rfl⟩

theorem toIsoDate_norm (v : Str) (flag : Bool) :
    normalizeText (toIsoDate v flag) = toIsoDate v flag :=
  norm_of_dateShape _ (toIsoDate_shape v flag)

theorem parseDayMonthWithYear_shape (v : Str) (y : Nat) (flag : Bool) :
    parseDayMonthWithYear v y flag = [] ∨
      ∃ y' mo d, parseDayMonthWithYear v y flag = fmtDate y' mo d := by
  simp only [parseDayMonthWithYear]
  repeat' split
  all_goals first
    | exact Or.inl rfl
    | exact Or.inr ⟨_, _, _, rfl⟩

theorem parseDayMonthWithYear_norm (v : Str) (y : Nat) (flag : Bool) :
    normalizeText (parseDayMonthWithYear v y flag) = parseDayMonthWithYear v y flag :=
  norm_of_dateShape _ (parseDayMonthWithYear_shape v y flag)

theorem parsePostDate_shape (v : Str) (cy fy : Option Nat) :
    parsePostDate v cy fy = [] ∨ ∃ y mo d, parsePostDate v cy fy = fmtDate y mo d := by
  simp only [parsePostDate]
  split
  · exact Or.inl rfl
  · split
    · exact toIsoDate_shape _ _
    · split
      · exact Or.inl rfl
      · split
        · exact Or.inl rfl
        · exact parseDayMonthWithYear_shape _ _ _

theorem parsePostDate_norm (v : Str) (cy fy : Option Nat) :
    normalizeText (parsePostDate v cy fy) = parsePostDate v cy fy :=
  norm_of_dateShape _ (parsePostDate_shape v cy fy)

theorem effectiveSourceType_norm (st : Str) :
    normalizeText (effectiveSourceType st) = effectiveSourceType st ∧
      effectiveSourceType st ≠ [] := by
  unfold effectiveSourceType
  split
  · constructor
    · exact normalizeText_idem st
    · rename_i h
      rw [Bool.or_eq_true, decide_eq_true_eq, decide_eq_true_eq] at h
      rcases h with h | h <;> rw [h] <;> decide
  · constructor <;> decide

theorem parseTiktokHandle_shape (u : Str) :
    parseTiktokHandle u = [] ∨
      ∃ h0, parseTiktokHandle u = '@' :: h0 ∧ h0 ≠ [] ∧
        (∀ a, h0.head? = some a → (a == '@') = false) ∧
        (∀ a, h0.getLast? = some a → wsChar a = false) := by
  simp only [parseTiktokHandle]
  split
  · exact Or.inl rfl
  · split
    · exact Or.inl rfl
    · rename_i seg hseg
      split
      · exact Or.inl rfl
      · rename_i hne
        refine Or.inr ⟨(normalizeText seg).dropWhile (fun c => c = '@'), rfl, hne, ?_, ?_⟩
        · intro a ha
          have h2 := head?_dropWhile_not (fun c => decide (c = '@')) (normalizeText seg) a ha
          simpa using h2
        · intro a ha
          rw [getLast?_dropWhile _ _ hne] at ha
          exact normalizeText_getLast?_not_ws seg a ha

theorem parseTiktokHandle_norm (u : Str) :
    normalizeText (parseTiktokHandle u) = parseTiktokHandle u := by
  rcases parseTiktokHandle_shape u with h | ⟨h0, heq, hne, _, hlast⟩
  · rw [h]; rfl
  · rw [heq]
    refine normalizeText_eq_self_of _ ?_ ?_
    · intro a ha
      simp only [List.head?_cons, Option.some.injEq] at ha
      rw [← ha]; rfl
    · intro a ha
      rw [getLast?_cons_of_ne_nil '@' h0 hne] at ha
      exact hlast a ha

theorem candDisplayName_of_handle (u : Str) (h : parseTiktokHandle u ≠ []) :
    candDisplayName (parseTiktokHandle u) ≠ [] ∧
      normalizeText (candDisplayName (parseTiktokHandle u)) ≠ [] := by
  rcases parseTiktokHandle_shape u with h' | ⟨h0, heq, hne, hhead, hlast⟩
  · exact absurd h' h
  · rw [heq]
    have hdn : candDisplayName ('@' :: h0) = h0 := by
      unfold candDisplayName
      rw [if_pos (by simp)]
      show List.dropWhile _ ('@' :: h0) = h0
      rw [List.dropWhile_cons]
      rw [if_pos (by decide)]
      refine dropWhile_eq_self_of_head? _ h0 ?_
      intro a ha
      simpa using hhead a ha
    rw [hdn]
    refine ⟨hne, ?_⟩
    rcases hg : h0.getLast? with _ | b
    · rw [List.getLast?_eq_none_iff] at hg; exact absurd hg hne
    · exact normalizeText_ne_nil_of_getLast h0 b hg (hlast b hg)

/-! ### Claim C2: the influencer merge never clobbers -/

theorem isEmpty_tt (l : Str) : l.isEmpty = true ↔ l = [] := by cases l <;> simp

theorem isEmpty_ff (l : Str) : l.isEmpty = false ↔ l ≠ [] := by cases l <;> simp

theorem findInfluencerByHandle_some (infs : List Influencer) (h : Str) (ex : Influencer)
    (hf : findInfluencerByHandle infs h = some ex) :
    h ≠ [] ∧ ex ∈ infs ∧ ex.handle = h := by
  unfold findInfluencerByHandle at hf
  split at hf
  · exact absurd hf (by simp)
  · rename_i hne
    refine ⟨hne, List.mem_of_find?_eq_some hf, ?_⟩
    have hp := List.find?_some hf
    simpa using hp

theorem normalizeContactMethod_norm (raw : Str) :
    normalizeText (normalizeContactMethod raw) = normalizeContactMethod raw := by
  simp only [normalizeContactMethod]
  split
  · rfl
  · split
    · split
      · decide
      · rename_i hsyn _
        simp only [Bool.or_eq_true, decide_eq_true_eq] at hsyn
        rcases hsyn with ((((h | h) | h) | h) | h) | h <;> rw [h] <;> decide
    · exact normalizeText_idem raw

theorem candContact_norm (raw : Str) :
    normalizeText (candContact raw).1 = (candContact raw).1 ∧
      normalizeText (candContact raw).2 = (candContact raw).2 := by
  unfold candContact
  split
  · exact ⟨rfl, normalizeContactMethod_norm raw⟩
  · exact ⟨normalizeContactMethod_norm raw, rfl⟩

/-- One patchable field of the influencer merge: the stored value is either
left alone (condition false), or the field was blank, the candidate non-empty,
and the candidate — a genuinely different value — is written. -/
theorem patch_field_cases (exv cand : Str) (hcn : cand ≠ [] → normalizeText cand ≠ []) :
    (((normalizeText exv).isEmpty && !cand.isEmpty) = false ∧
      (if ((normalizeText exv).isEmpty && !cand.isEmpty) = true then cand else exv) = exv) ∨
    (((normalizeText exv).isEmpty && !cand.isEmpty) = true ∧
      normalizeText exv = [] ∧ cand ≠ [] ∧
      (if ((normalizeText exv).isEmpty && !cand.isEmpty) = true then cand else exv) = cand ∧
      (if ((normalizeText exv).isEmpty && !cand.isEmpty) = true then cand else exv) ≠ exv) := by
  by_cases hc : ((normalizeText exv).isEmpty && !cand.isEmpty) = true
  · right
    have hc' := hc
    rw [Bool.and_eq_true, isEmpty_tt, Bool.not_eq_true', isEmpty_ff] at hc'
    refine ⟨hc, hc'.1, hc'.2, if_pos hc, ?_⟩
    rw [if_pos hc]
    intro hEq
    apply hcn hc'.2
    rw [hEq, hc'.1]
  · left
    rw [Bool.not_eq_true] at hc
    exact ⟨hc, if_neg (by simp [hc])⟩

/-- C2: when `create_or_patch_influencer` resolves an existing influencer, it
never creates; it writes one of the patchable fields only when that field is
currently blank and the candidate value is non-empty (and then writes exactly
the candidate); the handle is never modified; an existing non-empty notes
field is always left unchanged; and if none of the fields actually changed,
the call is reported as unchanged (`patched = false`) with the table and row
returned untouched. -/
theorem influencer_merge_never_clobbers
    (infs infs' : List Influencer) (ex row : Influencer)
    (profileUrl contactRaw notes now newId : Str) (patched created : Bool)
    (hfind : findInfluencerByHandle infs (parseTiktokHandle profileUrl) = some ex)
    (hrun : createOrPatchInfluencer infs (parseTiktokHandle profileUrl) contactRaw profileUrl
      notes now newId = (infs', row, patched, created)) :
    created = false ∧
    row.handle = ex.handle ∧
    (row.displayName = ex.displayName ∨
      (normalizeText ex.displayName = [] ∧ candDisplayName (parseTiktokHandle profileUrl) ≠ [] ∧
        row.displayName = candDisplayName (parseTiktokHandle profileUrl))) ∧
    (row.contactMethod = ex.contactMethod ∨
      (normalizeText ex.contactMethod = [] ∧ (candContact contactRaw).1 ≠ [] ∧
        row.contactMethod = (candContact contactRaw).1)) ∧
    (row.contactInfo = ex.contactInfo ∨
      (normalizeText ex.contactInfo = [] ∧ (candContact contactRaw).2 ≠ [] ∧
        row.contactInfo = (candContact contactRaw).2)) ∧
    (row.profileLink = ex.profileLink ∨
      (normalizeText ex.profileLink = [] ∧ normalizeText profileUrl ≠ [] ∧
        row.profileLink = normalizeText profileUrl)) ∧
    (row.notes = ex.notes ∨
      (normalizeText ex.notes = [] ∧ normalizeText notes ≠ [] ∧
        row.notes = normalizeText notes)) ∧
    (normalizeText ex.notes ≠ [] → row.notes = ex.notes) ∧
    ((row.displayName = ex.displayName ∧ row.contactMethod = ex.contactMethod ∧
        row.contactInfo = ex.contactInfo ∧ row.profileLink = ex.profileLink ∧
        row.notes = ex.notes) →
      (patched = false ∧ infs' = infs ∧ row = ex)) := by
  obtain ⟨hne, _, hhandle⟩ := findInfluencerByHandle_some infs _ ex hfind
  have hnorm := parseTiktokHandle_norm profileUrl
  have hc2 : ((normalizeText ex.handle).isEmpty && !(parseTiktokHandle profileUrl).isEmpty)
      = false := by
    rw [hhandle, hnorm]
    rcases hh : parseTiktokHandle profileUrl with _ | ⟨c, cs⟩
    · exact absurd hh hne
    · rfl
  have fDn := patch_field_cases ex.displayName (candDisplayName (parseTiktokHandle profileUrl))
    (fun _ => (candDisplayName_of_handle profileUrl hne).2)
  have fCm := patch_field_cases ex.contactMethod (candContact contactRaw).1
    (fun hc => by rw [(candContact_norm contactRaw).1]; exact hc)
  have fCi := patch_field_cases ex.contactInfo (candContact contactRaw).2
    (fun hc => by rw [(candContact_norm contactRaw).2]; exact hc)
  have fPl := patch_field_cases ex.profileLink (normalizeText profileUrl)
    (fun hc => by rw [normalizeText_idem]; exact hc)
  have fNt := patch_field_cases ex.notes (normalizeText notes)
    (fun hc => by rw [normalizeText_idem]; exact hc)
  simp only [createOrPatchInfluencer, hfind] at hrun
  rw [hc2] at hrun
  split at hrun
  · rename_i hchanged
    simp only [Prod.mk.injEq] at hrun
    obtain ⟨hinfs, hrow, hpatched, hcreated⟩ := hrun
    subst hinfs hrow hpatched hcreated
    refine ⟨rfl, by simp, ?_, ?_, ?_, ?_, ?_, ?_, ?_⟩
    · rcases fDn with ⟨hc, he⟩ | ⟨hc, h1, h2, h3, _⟩
      · left; simpa [hc] using he
      · right; exact ⟨h1, h2, by simpa [hc] using h3⟩
    · rcases fCm with ⟨hc, he⟩ | ⟨hc, h1, h2, h3, _⟩
      · left; simpa [hc] using he
      · right; exact ⟨h1, h2, by simpa [hc] using h3⟩
    · rcases fCi with ⟨hc, he⟩ | ⟨hc, h1, h2, h3, _⟩
      · left; simpa [hc] using he
      · right; exact ⟨h1, h2, by simpa [hc] using h3⟩
    · rcases fPl with ⟨hc, he⟩ | ⟨hc, h1, h2, h3, _⟩
      · left; simpa [hc] using he
      · right; exact ⟨h1, h2, by simpa [hc] using h3⟩
    · rcases fNt with ⟨hc, he⟩ | ⟨hc, h1, h2, h3, _⟩
      · left; simpa [hc] using he
      · right; exact ⟨h1, h2, by simpa [hc] using h3⟩
    · intro hnn
      rcases fNt with ⟨hc, he⟩ | ⟨_, h1, _, _, _⟩
      · simpa [hc] using he
      · exact absurd h1 hnn
    · intro heq
      obtain ⟨e1, e2, e3, e4, e5⟩ := heq
      exfalso
      rw [Bool.or_false] at hchanged
      simp only [Bool.or_eq_true] at hchanged
      rcases hchanged with ((((hc1 | hc3) | hc4) | hc5) | hc6)
      · rcases fDn with ⟨hc, _⟩ | ⟨_, _, _, _, hne'⟩
        · rw [hc1] at hc; exact absurd hc (by simp)
        · exact hne' (by simpa [hc1] using e1)
      · rcases fCm with ⟨hc, _⟩ | ⟨_, _, _, _, hne'⟩
        · rw [hc3] at hc; exact absurd hc (by simp)
        · exact hne' (by simpa [hc3] using e2)
      · rcases fCi with ⟨hc, _⟩ | ⟨_, _, _, _, hne'⟩
        · rw [hc4] at hc; exact absurd hc (by simp)
        · exact hne' (by simpa [hc4] using e3)
      · rcases fPl with ⟨hc, _⟩ | ⟨_, _, _, _, hne'⟩
        · rw [hc5] at hc; exact absurd hc (by simp)
        · exact hne' (by simpa [hc5] using e4)
      · rcases fNt with ⟨hc, _⟩ | ⟨_, _, _, _, hne'⟩
        · rw [hc6] at hc; exact absurd hc (by simp)
        · exact hne' (by simpa [hc6] using e5)
  · simp only [Prod.mk.injEq] at hrun
    obtain ⟨hinfs, hrow, hpatched, hcreated⟩ := hrun
    subst hinfs hrow hpatched hcreated
    exact ⟨rfl, rfl, Or.inl rfl, Or.inl rfl, Or.inl rfl, Or.inl rfl, Or.inl rfl,
      fun _ => rfl, fun _ => ⟨rfl, rfl, rfl⟩⟩

/-- C2 witness: a concrete re-import against an influencer whose notes are
non-empty leaves the stored notes unchanged. -/
theorem influencer_merge_never_clobbers_witness :
    (createOrPatchInfluencer [infWitness] (parseTiktokHandle ("https://tiktok.com/@a".toList))
      ("zalo".toList) ("https://tiktok.com/@a".toList) ("different".toList) ("t1".toList)
      ("i2".toList)).2.1.notes = "keep these notes".toList := by
  have h := influencer_merge_never_clobbers [infWitness]
    (createOrPatchInfluencer [infWitness] (parseTiktokHandle ("https://tiktok.com/@a".toList))
      ("zalo".toList) ("https://tiktok.com/@a".toList) ("different".toList) ("t1".toList)
      ("i2".toList)).1
    infWitness
    (createOrPatchInfluencer [infWitness] (parseTiktokHandle ("https://tiktok.com/@a".toList))
      ("zalo".toList) ("https://tiktok.com/@a".toList) ("different".toList) ("t1".toList)
      ("i2".toList)).2.1
    ("https://tiktok.com/@a".toList) ("zalo".toList) ("different".toList) ("t1".toList)
    ("i2".toList)
    (createOrPatchInfluencer [infWitness] (parseTiktokHandle ("https://tiktok.com/@a".toList))
      ("zalo".toList) ("https://tiktok.com/@a".toList) ("different".toList) ("t1".toList)
      ("i2".toList)).2.2.1
    (createOrPatchInfluencer [infWitness] (parseTiktokHandle ("https://tiktok.com/@a".toList))
      ("zalo".toList) ("https://tiktok.com/@a".toList) ("different".toList) ("t1".toList)
      ("i2".toList)).2.2.2
    (by decide) rfl
  exact h.2.2.2.2.2.2.2.1 (by decide)

/-! ### Claim C5: traffic snapshot no-op guarantees -/

/-- C5: `upsert_traffic_for_booking` touches nothing and reports neither a
create nor an update when all five parsed metrics are zero; and when an
existing snapshot for the booking agrees with the incoming five metrics, the
booking's (normalized) post date and video link, and the note, the snapshot —
including its capture timestamp — is left entirely unchanged. -/
theorem upsert_traffic_noop
    (logs : List TrafficLog) (b : Booking) (views likes comments saves shares : ℤ)
    (note now newId : Str) :
    ((views = 0 ∧ likes = 0 ∧ comments = 0 ∧ saves = 0 ∧ shares = 0) →
      upsertTrafficForBooking logs b views likes comments saves shares note now newId =
        (logs, false, false)) ∧
    (∀ ex, logs.find? (fun t => t.bookingId == b.id) = some ex →
      ex.views = views → ex.likes = likes → ex.comments = comments → ex.saves = saves →
      ex.shares = shares →
      normalizeText ex.postDate = normalizeText b.postDate →
      normalizeText ex.videoLink = normalizeText b.videoLink →
      normalizeText ex.note = normalizeText note →
      upsertTrafficForBooking logs b views likes comments saves shares note now newId =
        (logs, false, false)) := by
  constructor
  · rintro ⟨h1, h2, h3, h4, h5⟩
    subst h1 h2 h3 h4 h5
    rfl
  · intro ex hfind h1 h2 h3 h4 h5 h6 h7 h8
    unfold upsertTrafficForBooking
    split
    · rfl
    · split
      · rename_i ex1 hft
        rw [hfind] at hft
        obtain rfl : ex1 = ex := (Option.some.inj hft).symm
        rw [if_pos ⟨h1, h2, h3, h4, h5, h6, h7, h8⟩]
      · rename_i hfn
        rw [hfind] at hfn
        exact absurd hfn (by simp)

/-- C5 witness: a concrete identical re-upsert and a concrete all-zero upsert
are both no-ops. -/
theorem upsert_traffic_noop_witness :
    upsertTrafficForBooking [trWitness] bkWitness 5 1 0 0 0 [] ("t9".toList) ("tr2".toList) =
      ([trWitness], false, false) ∧
    upsertTrafficForBooking [] bkWitness 0 0 0 0 0 [] ("t9".toList) ("tr2".toList) =
      ([], false, false) := by
  constructor
  · exact (upsert_traffic_noop [trWitness] bkWitness 5 1 0 0 0 [] ("t9".toList)
      ("tr2".toList)).2 trWitness (by decide) rfl rfl rfl rfl rfl (by decide) (by decide)
      (by decide)
  · exact (upsert_traffic_noop [] bkWitness 0 0 0 0 0 [] ("t9".toList)
      ("tr2".toList)).1 ⟨rfl, rfl, rfl, rfl, rfl⟩

/-! ### Claim C3: booking resolution key priority -/

theorem head?_append_left (l m : Str) (h : l ≠ []) : (l ++ m).head? = l.head? := by
  cases l with
  | nil => exact absurd rfl h
  | cons c cs => rfl

/-- C3 (counterexample): a supplied non-empty video link that matches no
booking does NOT stop resolution — the fallback tuple still runs and finds a
booking, where the claim says the tuple is consulted only when the video link
is absent (so this lookup should find nothing). -/
theorem find_booking_fallback_counterexample :
    findBooking [cexBookingL] ("https://x".toList) ("@x".toList) [] ("s".toList)
      ("预约".toList) [] = some cexBookingL ∧
    normalizeText ("https://x".toList) ≠ [] ∧
    cexBookingL.videoLink ≠ normalizeText ("https://x".toList) := by decide

/-- `find_booking` as a three-stage if-chain: the staged match/if cascade of
the source rewritten with explicit applicability guards. -/
theorem findBooking_eq (bks : List Booking)
    (videoLink handle postDate storeId sourceType externalKey : Str) :
    findBooking bks videoLink handle postDate storeId sourceType externalKey =
      (if normalizeText externalKey ≠ [] ∧
          bks.any (importMatch (normalizeText externalKey)) = true then
        bks.find? (importMatch (normalizeText externalKey))
      else if normalizeText videoLink ≠ [] ∧
          bks.any (linkEq (normalizeText videoLink)) = true then
        bks.find? (linkEq (normalizeText videoLink))
      else if normalizeText handle ≠ [] ∧ normalizeText storeId ≠ [] ∧
          normalizeText sourceType ≠ [] then
        bks.find? (tupleMatch (normalizeText handle) (normalizeText postDate)
          (normalizeText storeId) (normalizeText sourceType))
      else none) := by
  simp only [findBooking, findBookingByVideoLink]
  rw [normalizeText_idem videoLink]
  split
  · rename_i r hS1
    by_cases hext : normalizeText externalKey = []
    · rw [if_neg (fun hc => hc hext)] at hS1
      exact absurd hS1 (by simp)
    · rw [if_pos hext] at hS1
      rw [if_pos ⟨hext, List.any_eq_true.mpr
        ⟨r, List.mem_of_find?_eq_some hS1, List.find?_some hS1⟩⟩]
      exact hS1.symm
  · rename_i hS1
    have hRHS1 : ¬(normalizeText externalKey ≠ [] ∧
        bks.any (importMatch (normalizeText externalKey)) = true) := by
      rintro ⟨hne, hany⟩
      rw [if_pos hne] at hS1
      obtain ⟨x, hx, hpx⟩ := List.any_eq_true.mp hany
      rw [List.find?_eq_none] at hS1
      exact absurd hpx (by simpa using hS1 x hx)
    rw [if_neg hRHS1]
    split
    · rename_i r hS2
      by_cases hlink : normalizeText videoLink = []
      · rw [if_neg (fun hc => hc hlink)] at hS2
        exact absurd hS2 (by simp)
      · rw [if_pos hlink, if_neg hlink] at hS2
        rw [if_pos ⟨hlink, List.any_eq_true.mpr
          ⟨r, List.mem_of_find?_eq_some hS2, List.find?_some hS2⟩⟩]
        exact hS2.symm
    · rename_i hS2
      have hRHS2 : ¬(normalizeText videoLink ≠ [] ∧
          bks.any (linkEq (normalizeText videoLink)) = true) := by
        rintro ⟨hne, hany⟩
        rw [if_pos hne, if_neg hne] at hS2
        obtain ⟨x, hx, hpx⟩ := List.any_eq_true.mp hany
        rw [List.find?_eq_none] at hS2
        exact absurd hpx (by simpa using hS2 x hx)
      rw [if_neg hRHS2]
      by_cases h3 : normalizeText handle ≠ [] ∧ normalizeText storeId ≠ [] ∧
          normalizeText sourceType ≠ []
      · rw [if_pos h3,
          if_pos (show (decide (normalizeText handle ≠ []) &&
            decide (normalizeText storeId ≠ []) &&
            decide (normalizeText sourceType ≠ [])) = true by
              simp [h3.1, h3.2.1, h3.2.2])]
      · rw [if_neg h3, if_neg (show ¬((decide (normalizeText handle ≠ []) &&
          decide (normalizeText storeId ≠ []) &&
          decide (normalizeText sourceType ≠ [])) = true) by
            intro hb
            simp only [Bool.and_eq_true, decide_eq_true_eq] at hb
            exact h3 ⟨hb.1.1, hb.1.2, hb.2⟩)]

/-- C3 (amended): `find_booking` resolves by, in decreasing priority, the key
query of the import (placeholder video link or tagged notes) when an external
key is supplied, then an exact non-empty video-link match, then the {handle,
post date, store id, source type} tuple — the tuple being consulted whenever
handle, store id and source type are all non-empty, even if a video link was
supplied but matched nothing.  The first match in table order wins and if the
applicable stages all fail the lookup returns nothing. -/
theorem find_booking_resolution (bks : List Booking)
    (videoLink handle postDate storeId sourceType externalKey : Str) :
    findBooking bks videoLink handle postDate storeId sourceType externalKey =
      (if normalizeText externalKey ≠ [] ∧
          bks.any (importMatch (normalizeText externalKey)) = true then
        bks.find? (importMatch (normalizeText externalKey))
      else if normalizeText videoLink ≠ [] ∧
          bks.any (linkEq (normalizeText videoLink)) = true then
        bks.find? (linkEq (normalizeText videoLink))
      else if normalizeText handle ≠ [] ∧ normalizeText storeId ≠ [] ∧
          normalizeText sourceType ≠ [] then
        bks.find? (tupleMatch (normalizeText handle) (normalizeText postDate)
          (normalizeText storeId) (normalizeText sourceType))
      else none) :=
  findBooking_eq bks videoLink handle postDate storeId sourceType externalKey

/-! ### Claim C4: import-tag appending and the update flag -/

theorem dropWhile_append_cases (p : Char → Bool) (x y : Str) :
    (x ++ y).dropWhile p = x.dropWhile p ++ y ∨
      (x.dropWhile p = [] ∧ (x ++ y).dropWhile p = y.dropWhile p) := by
  induction x with
  | nil => exact Or.inr ⟨rfl, rfl⟩
  | cons c cs ih =>
    by_cases hc : p c
    · rcases ih with h | ⟨h1, h2⟩
      · exact Or.inl (by simp [List.dropWhile_cons, hc, h])
      · exact Or.inr ⟨by simp [List.dropWhile_cons, hc, h1],
          by simp [List.dropWhile_cons, hc, h2]⟩
    · exact Or.inl (by simp [List.dropWhile_cons, hc])

/-- A non-blank-edged suffix survives `strip` of any extension on its left,
and is still contained in the result. -/
theorem containsSub_suffix_normalize (x p : Str)
    (hh : ∀ a, p.head? = some a → wsChar a = false)
    (hl : ∀ a, p.getLast? = some a → wsChar a = false)
    (hp : p ≠ []) : containsSub p (normalizeText (x ++ p)) = true := by
  have hdp : p.dropWhile wsChar = p := dropWhile_eq_self_of_head? wsChar p hh
  have hstep : ∃ y, (x ++ p).dropWhile wsChar = y ++ p := by
    rcases dropWhile_append_cases wsChar x p with h | ⟨_, h2⟩
    · exact ⟨x.dropWhile wsChar, h⟩
    · exact ⟨[], by rw [h2, hdp]; rfl⟩
  obtain ⟨y, hy⟩ := hstep
  have hrevne : p.reverse ≠ [] := by simpa using hp
  have hdrev : (p.reverse ++ y.reverse).dropWhile wsChar = p.reverse ++ y.reverse := by
    refine dropWhile_eq_self_of_head? wsChar _ ?_
    intro a ha
    rw [head?_append_left _ _ hrevne, List.head?_reverse] at ha
    exact hl a ha
  have : normalizeText (x ++ p) = y ++ p := by
    rw [normalizeText_def, hy, List.reverse_append, hdrev, List.reverse_append,
      List.reverse_reverse, List.reverse_reverse]
  rw [this]
  exact containsSub_append_self p y

theorem buildImportTag_head_last (k : Str) (h : buildImportTag k ≠ []) :
    (buildImportTag k).head? = some '[' ∧ (buildImportTag k).getLast? = some ']' := by
  unfold buildImportTag at h ⊢
  split
  · constructor
    · rfl
    · show (("[import:".toList ++ normalizeText k) ++ [']']).getLast? = some ']'
      exact List.getLast?_concat _
  · rename_i hc
    rw [if_neg hc] at h
    exact absurd rfl h

/-- The import tag is always contained in the tag-adjusted notes text. -/
theorem tag_in_tagNotes (k en0 : Str) (htag : buildImportTag k ≠ []) :
    containsSub (buildImportTag k) (tagNotes (buildImportTag k) en0) = true := by
  obtain ⟨hh, hl⟩ := buildImportTag_head_last k htag
  have hh' : ∀ a, (buildImportTag k).head? = some a → wsChar a = false := by
    intro a ha; rw [hh] at ha; cases ha; rfl
  have hl' : ∀ a, (buildImportTag k).getLast? = some a → wsChar a = false := by
    intro a ha; rw [hl] at ha; cases ha; rfl
  unfold tagNotes
  split
  · split
    · have he : en0 ++ '\n' :: buildImportTag k = (en0 ++ ['\n']) ++ buildImportTag k := by
        simp
      rw [he]
      exact containsSub_suffix_normalize _ _ hh' hl' htag
    · have h0 := containsSub_append_self (buildImportTag k) []
      simpa using h0
  · rename_i hc
    by_cases hin : containsSub (buildImportTag k) en0 = true
    · exact hin
    · exfalso
      apply hc
      rw [Bool.eq_false_iff.mpr hin]
      simp [htag]

/-- The found-row, flags-off behaviour of `create_or_update_booking`: nothing
is written and the row is reported as a no-op duplicate. -/
theorem createOrUpdateBooking_flags_off
    (db : DB) (storeId storeName : Str) (influencerRow : Influencer)
    (visitDate visitWindow serviceDetail videoRights postDate videoLink : Str)
    (budgetWan : ℚ) (notes sourceType externalKey now newId : Str) (ex : Booking)
    (hfind : findBooking db.bookings
      (if normalizeText externalKey ≠ [] && normalizeText videoLink = [] then
        importPlaceholder (normalizeText externalKey)
      else normalizeText videoLink)
      (normalizeText influencerRow.handle) (normalizeText postDate) storeId
      (effectiveSourceType sourceType) (normalizeText externalKey) = some ex) :
    createOrUpdateBooking db storeId storeName influencerRow visitDate visitWindow
      serviceDetail videoRights postDate videoLink budgetWan notes sourceType externalKey
      false false now newId = (db, ex, false, false) := by
  simp only [createOrUpdateBooking, hfind]
  rfl

/-- C4 (counterexample): a booking matched through its external key whose
notes lack the import tag is left completely untouched when no update flags
are set — the tag append is inside the fill-empty branch, so nothing is
appended and the row counts as a no-op duplicate, contradicting the claimed
flag-independence. -/
theorem booking_tag_requires_flag_counterexample :
    createOrUpdateBooking ⟨[], [bkTagCex], []⟩ ("s".toList) ("S".toList) infPlain
      [] [] [] [] [] [] qZero [] ("预约".toList) ("k".toList) false false
      ("t1".toList) ("b2".toList) = (⟨[], [bkTagCex], []⟩, bkTagCex, false, false) ∧
    containsSub (buildImportTag ("k".toList)) bkTagCex.notes = false := by decide

/-- C4 (amended): when the fill-empty update flag IS set, a booking matched
with a supplied external key whose notes do not already contain the import
tag gets the tag appended (independently of the store flag and of any other
field change) and the row counts as an update; with no update flags set the
tag is NOT appended — the matched row is returned untouched and reported as
a no-op duplicate. -/
theorem booking_import_tag_append
    (db : DB) (storeId storeName : Str) (influencerRow : Influencer)
    (visitDate visitWindow serviceDetail videoRights postDate videoLink : Str)
    (budgetWan : ℚ) (notes sourceType externalKey now newId : Str)
    (allowUpdateStore : Bool) (ex : Booking)
    (hfind : findBooking db.bookings
      (if normalizeText externalKey ≠ [] && normalizeText videoLink = [] then
        importPlaceholder (normalizeText externalKey)
      else normalizeText videoLink)
      (normalizeText influencerRow.handle) (normalizeText postDate) storeId
      (effectiveSourceType sourceType) (normalizeText externalKey) = some ex)
    (htag : buildImportTag (normalizeText externalKey) ≠ [])
    (hnot : containsSub (buildImportTag (normalizeText externalKey))
      (normalizeText ex.notes) = false) :
    ((createOrUpdateBooking db storeId storeName influencerRow visitDate visitWindow
        serviceDetail videoRights postDate videoLink budgetWan notes sourceType externalKey
        allowUpdateStore true now newId).2.2.2 = true ∧
      containsSub (buildImportTag (normalizeText externalKey))
        ((createOrUpdateBooking db storeId storeName influencerRow visitDate visitWindow
          serviceDetail videoRights postDate videoLink budgetWan notes sourceType externalKey
          allowUpdateStore true now newId).2.1.notes) = true) ∧
    createOrUpdateBooking db storeId storeName influencerRow visitDate visitWindow
      serviceDetail videoRights postDate videoLink budgetWan notes sourceType externalKey
      false false now newId = (db, ex, false, false) := by
  refine ⟨?_, createOrUpdateBooking_flags_off db storeId storeName influencerRow visitDate
    visitWindow serviceDetail videoRights postDate videoLink budgetWan notes sourceType
    externalKey now newId ex hfind⟩
  have hcTag : (buildImportTag (normalizeText externalKey) ≠ [] &&
      !containsSub (buildImportTag (normalizeText externalKey)) (normalizeText ex.notes))
      = true := by
    simp [htag, hnot]
  constructor
  · simp only [createOrUpdateBooking, hfind, hcTag, Bool.true_or, Bool.true_and, Bool.or_true]
  · simp only [createOrUpdateBooking, hfind, hcTag, Bool.true_or, Bool.true_and, Bool.or_true,
      eq_self_iff_true, if_true]
    split
    · exact tag_in_tagNotes _ _ htag
    · split
      · obtain ⟨hh, hl⟩ := buildImportTag_head_last (normalizeText externalKey) htag
        have hh' : ∀ a, (buildImportTag (normalizeText externalKey)).head? = some a →
            wsChar a = false := by
          intro a ha; rw [hh] at ha; cases ha; rfl
        have hl' : ∀ a, (buildImportTag (normalizeText externalKey)).getLast? = some a →
            wsChar a = false := by
          intro a ha; rw [hl] at ha; cases ha; rfl
        have he : normalizeText ex.notes ++ '\n' :: buildImportTag (normalizeText externalKey) =
            (normalizeText ex.notes ++ ['\n']) ++ buildImportTag (normalizeText externalKey) := by
          simp
        rw [he]
        exact containsSub_suffix_normalize _ _ hh' hl' htag
      · have h0 := containsSub_append_self (buildImportTag (normalizeText externalKey)) []
        simpa using h0

/-- C4 witness: the amended behaviour at a concrete matched booking — tag
appended and counted as an update with the flag, untouched no-op without. -/
theorem booking_import_tag_append_witness :
    ((createOrUpdateBooking ⟨[], [bkTagCex], []⟩ ("s".toList) ("S".toList) infPlain
        [] [] [] [] [] [] qZero [] ("预约".toList) ("k".toList) false true
        ("t1".toList) ("b2".toList)).2.2.2 = true ∧
      containsSub (buildImportTag (normalizeText ("k".toList)))
        ((createOrUpdateBooking ⟨[], [bkTagCex], []⟩ ("s".toList) ("S".toList) infPlain
          [] [] [] [] [] [] qZero [] ("预约".toList) ("k".toList) false true
          ("t1".toList) ("b2".toList)).2.1.notes) = true) ∧
    createOrUpdateBooking ⟨[], [bkTagCex], []⟩ ("s".toList) ("S".toList) infPlain
      [] [] [] [] [] [] qZero [] ("预约".toList) ("k".toList) false false
      ("t1".toList) ("b2".toList) = (⟨[], [bkTagCex], []⟩, bkTagCex, false, false) :=
  booking_import_tag_append ⟨[], [bkTagCex], []⟩ ("s".toList) ("S".toList) infPlain
    [] [] [] [] [] [] qZero [] ("预约".toList) ("k".toList) ("t1".toList) ("b2".toList)
    false bkTagCex (by decide) (by decide) (by decide)

/-! ### Claims about the field normalizers and the row classifier -/

/-- C6 (counterexample): `parse_int_metric` does NOT return "a non-negative
integer rounded to nearest" on every input: `"12.7"` truncates to `12`
(nearest would be 13) because the plain branch is `int(float(s))`, and `"-5"`
yields the negative `-5`. -/
theorem parse_int_metric_not_rounded_counterexample :
    parseIntMetric ("12.7".toList) = 12 ∧ parseIntMetric ("-5".toList) = -5 := by decide

/-- C6 (amended): `parse_int_metric` scales and rounds `k`/`m`-suffixed
counts (with a comma and no dot read as a decimal point there), strips commas
from plain numerics and truncates them toward zero (so the result can be
negative for negative input), and returns 0 on empty or unparseable text; all
the spec's examples hold. -/
theorem parse_int_metric_behaviour :
    parseIntMetric ("25,8k".toList) = 25800 ∧
    parseIntMetric ("122.8k".toList) = 122800 ∧
    parseIntMetric ("50k".toList) = 50000 ∧
    parseIntMetric ("9240".toList) = 9240 ∧
    parseIntMetric ("".toList) = 0 ∧
    parseIntMetric ("abc".toList) = 0 ∧
    parseIntMetric ("12.7".toList) = 12 ∧
    parseIntMetric ("25,8".toList) = 258 ∧
    parseIntMetric ("1,234".toList) = 1234 ∧
    parseIntMetric ("-5".toList) = -5 ∧
    parseIntMetric ("3.6m".toList) = 3600000 := by decide

/-- C7: `to_iso_date` tries the year-first, day-first and localized patterns
in that order (the mixed input contains both a year-first and a day-first
date and the year-first one wins); `"2023/12/21"`, `"21/12/2023"` and
`"2023年12月21"` (with or without the trailing day glyph) all yield
`"2023-12-21"`; and `"13/5/2023"` resolves to day 13, month 5 for either
value of the day-first preference flag. -/
theorem to_iso_date_spec :
    toIsoDate ("2023/12/21".toList) = "2023-12-21".toList ∧
    toIsoDate ("21/12/2023".toList) = "2023-12-21".toList ∧
    toIsoDate ("2023年12月21".toList) = "2023-12-21".toList ∧
    toIsoDate ("2023年12月21日".toList) = "2023-12-21".toList ∧
    (∀ flag : Bool, toIsoDate ("13/5/2023".toList) flag = "2023-05-13".toList) ∧
    toIsoDate ("2023/1/2 or 3/4/2023".toList) = "2023-01-02".toList := by
  refine ⟨by decide, by decide, by decide, by decide, ?_, by decide⟩
  intro flag
  cases flag <;> decide

/-- C10: the date parsers perform no calendar-range validation — out-of-range
matched components are formatted as-is. -/
theorem date_parsers_no_range_validation :
    toIsoDate ("2023/99/99".toList) = "2023-99-99".toList ∧
    parseDayMonthWithYear ("25/13".toList) 2023 = "2023-13-25".toList := by decide

/-- C8 (counterexample): a header containing the visit-date label 到访日期
together with the post-date and video-link labels is classified `booking`,
not `walkin` as the claim predicts — the source returns `booking` as soon as
either 到访时间 or 到访日期 occurs. -/
theorem detect_sheet_mode_counterexample :
    detectSheetMode ["到访日期".toList, "视频发布日期".toList, "视频链接".toList] =
      "booking".toList ∧ ("booking".toList : Str) ≠ "walkin".toList := by decide

/-- C8 (amended): the mode is `walkin` exactly when the header blob contains
NEITHER the visit-time label 到访时间 NOR the visit-date label 到访日期 and
contains both the post-date label 视频发布日期 and the video-link label
视频链接; any other header is `booking` (so a visit-time or visit-date label
anywhere forces `booking`). -/
theorem detect_sheet_mode_rule (header : List Str) :
    detectSheetMode header =
      (if !containsSub ("到访时间".toList) (headerBlob header) &&
          !containsSub ("到访日期".toList) (headerBlob header) &&
          containsSub ("视频发布日期".toList) (headerBlob header) &&
          containsSub ("视频链接".toList) (headerBlob header)
       then "walkin".toList else "booking".toList) := by
  simp only [detectSheetMode]
  cases h1 : containsSub ("到访时间".toList) (headerBlob header) <;>
    cases h2 : containsSub ("到访日期".toList) (headerBlob header) <;>
      cases h3 : containsSub ("视频发布日期".toList) (headerBlob header) <;>
        cases h4 : containsSub ("视频链接".toList) (headerBlob header) <;>
          simp [h1, h2, h3, h4]

/-- C9 (counterexample): on `"2023/1/2 3月4"` the extracted date comes from
the year-first pattern, yet the residual window is empty — BOTH date-shaped
substrings were stripped (one per pattern), where removing at most one (the
claim's reading, `windowSingleRemoval`) would leave `"3月4"`. -/
theorem visit_window_strips_two_dates :
    (parseVisitDateAndWindow ("2023/1/2 3月4".toList) none none) =
      ("2023-01-02".toList, []) ∧
    windowSingleRemoval ("2023/1/2 3月4".toList) = "3月4".toList ∧
    ("3月4".toList : Str) ≠ [] := by decide

/-- C9 (amended): whenever `parse_visit_date_and_window` extracts a date, the
residual window is the normalized input with, per pattern in the fixed
four-pattern source order, at most the first occurrence of that pattern
removed (so up to four date-shaped substrings can disappear), followed by the
day-glyph strip and the leading punctuation/whitespace trim — independent of
which pattern produced the detected date. -/
theorem visit_window_amended (visitRaw : Str) (cy fy : Option Nat)
    (h : (parseVisitDateAndWindow visitRaw cy fy).1 ≠ []) :
    (parseVisitDateAndWindow visitRaw cy fy).2 = windowStrip (normalizeText visitRaw) := by
  simp only [parseVisitDateAndWindow, windowStrip] at h ⊢
  by_cases hraw : normalizeText visitRaw = []
  · rw [if_pos hraw] at h
    exact absurd rfl h
  · rw [if_neg hraw] at h ⊢
    by_cases hC : toIsoDate (normalizeText visitRaw) ≠ []
    · rw [if_pos hC, if_neg hC] at h ⊢
    · rw [if_neg hC] at h ⊢
      split at h
      · rename_i hM
        exact absurd hM h
      · rename_i hM
        rw [if_neg hM]

/-- C9 witness for the amended theorem at a concrete input. -/
theorem visit_window_amended_witness :
    (parseVisitDateAndWindow ("12月21日 晚上6点".toList) (some 2023) none).1 ≠ [] ∧
    (parseVisitDateAndWindow ("12月21日 晚上6点".toList) (some 2023) none).2 =
      windowStrip (normalizeText ("12月21日 晚上6点".toList)) :=
  ⟨by decide, visit_window_amended ("12月21日 晚上6点".toList) (some 2023) none (by decide)⟩

/-! ### Claim C1: idempotence of the full import -/

theorem ne_nil_of_normalizeText (s : Str) (h : normalizeText s ≠ []) : s ≠ [] := by
  intro hs
  rw [hs] at h
  exact h rfl

theorem hasHandle_append (l l' : List Influencer) (g : Str) (h : hasHandle l g = true) :
    hasHandle (l ++ l') g = true := by
  unfold hasHandle at h ⊢
  rw [List.any_append, h, Bool.true_or]

theorem hasHandle_map_of_handle (f : Influencer → Influencer) (l : List Influencer) (g : Str)
    (hf : ∀ i, (f i).handle = i.handle) : hasHandle (l.map f) g = hasHandle l g := by
  unfold hasHandle
  rw [List.any_map]
  have hfn : ((fun i : Influencer => i.handle == g) ∘ f) =
      (fun i : Influencer => i.handle == g) := by
    funext i
    simp [Function.comp, hf i]
  rw [hfn]

theorem find?_isSome_of_any {α : Type} (p : α → Bool) (l : List α) (h : l.any p = true) :
    (l.find? p).isSome = true := by
  induction l with
  | nil => simp at h
  | cons a l ih =>
    rw [List.any_cons] at h
    cases ha : p a with
    | true => simp [List.find?_cons, ha]
    | false =>
      rw [ha, Bool.false_or] at h
      simp only [List.find?_cons, ha]
      exact ih h

theorem any_of_find?_isSome {α : Type} (p : α → Bool) (l : List α)
    (h : (l.find? p).isSome = true) : l.any p = true := by
  cases hf : l.find? p with
  | none => rw [hf] at h; simp at h
  | some a => exact List.any_eq_true.mpr ⟨a, List.mem_of_find?_eq_some hf, List.find?_some hf⟩

theorem findInfluencerByHandle_isSome (infs : List Influencer) (g : Str)
    (hg : g ≠ []) (h : hasHandle infs g = true) :
    (findInfluencerByHandle infs g).isSome = true := by
  unfold findInfluencerByHandle
  rw [if_neg hg]
  exact find?_isSome_of_any _ _ h

theorem findInfluencerByHandle_handle (infs : List Influencer) (g : Str) (ex : Influencer)
    (h : findInfluencerByHandle infs g = some ex) : ex.handle = g ∧ ex ∈ infs := by
  unfold findInfluencerByHandle at h
  split at h
  · exact Option.noConfusion h
  · exact ⟨by simpa using List.find?_some h, List.mem_of_find?_eq_some h⟩

/-- The resolved influencer row always carries exactly the looked-up handle. -/
theorem createOrPatchInfluencer_handle (infs : List Influencer)
    (handle c p n now newId : Str) :
    (createOrPatchInfluencer infs handle c p n now newId).2.1.handle = handle := by
  cases hf : findInfluencerByHandle infs handle with
  | none => simp only [createOrPatchInfluencer, hf]
  | some ex =>
    obtain ⟨hex, -⟩ := findInfluencerByHandle_handle infs handle ex hf
    simp only [createOrPatchInfluencer, hf]
    split
    · show (if ((normalizeText ex.handle).isEmpty && !handle.isEmpty) = true then handle
        else ex.handle) = handle
      split
      · rfl
      · exact hex
    · exact hex

/-- A lookup that finds an existing influencer never reports a creation. -/
theorem createOrPatchInfluencer_found_created (infs : List Influencer)
    (handle c p n now newId : Str)
    (hf : (findInfluencerByHandle infs handle).isSome = true) :
    (createOrPatchInfluencer infs handle c p n now newId).2.2.2 = false := by
  obtain ⟨ex, hex⟩ := Option.isSome_iff_exists.mp hf
  simp only [createOrPatchInfluencer, hex]
  split <;> rfl

/-- For a handle that survives stripping, `create_or_patch_influencer` keeps
every handle already present in the table and guarantees its own handle is
present afterwards. -/
theorem createOrPatchInfluencer_table (infs : List Influencer)
    (handle c p n now newId : Str) (hh : normalizeText handle ≠ []) :
    (∀ g, hasHandle infs g = true →
      hasHandle (createOrPatchInfluencer infs handle c p n now newId).1 g = true) ∧
    hasHandle (createOrPatchInfluencer infs handle c p n now newId).1 handle = true := by
  cases hf : findInfluencerByHandle infs handle with
  | none =>
    constructor
    · intro g hg
      simp only [createOrPatchInfluencer, hf]
      exact hasHandle_append _ _ _ hg
    · simp only [createOrPatchInfluencer, hf]
      unfold hasHandle
      rw [List.any_append]
      simp
  | some ex =>
    obtain ⟨hex, hmem⟩ := findInfluencerByHandle_handle infs handle ex hf
    have hseen : hasHandle infs handle = true :=
      List.any_eq_true.mpr ⟨ex, hmem, by simp [hex]⟩
    have hc2 : ((normalizeText ex.handle).isEmpty && !handle.isEmpty) = false := by
      rw [hex]
      cases hnn : normalizeText handle with
      | nil => exact absurd hnn hh
      | cons a l => rfl
    have hmono : ∀ g, hasHandle infs g = true →
        hasHandle (createOrPatchInfluencer infs handle c p n now newId).1 g = true := by
      intro g hg
      simp only [createOrPatchInfluencer, hf]
      split
      · rw [hasHandle_map_of_handle]
        · exact hg
        · intro i
          by_cases hid : (i.id == ex.id) = true
          · rw [if_pos hid]
            show (if ((normalizeText ex.handle).isEmpty && !handle.isEmpty) = true then handle
              else i.handle) = i.handle
            rw [hc2]
            simp
          · rw [if_neg hid]
      · exact hg
    exact ⟨hmono, hmono handle hseen⟩

/-- The not-found branch of `create_or_update_booking`: the new row is
appended and reported as created, independent of the update flags. -/
theorem createOrUpdateBooking_not_found
    (db : DB) (storeId storeName : Str) (influencerRow : Influencer)
    (visitDate visitWindow serviceDetail videoRights postDate videoLink : Str)
    (budgetWan : ℚ) (notes sourceType externalKey : Str) (aUS aUE : Bool) (now newId : Str)
    (hfind : findBooking db.bookings
      (if normalizeText externalKey ≠ [] && normalizeText videoLink = [] then
        importPlaceholder (normalizeText externalKey)
      else normalizeText videoLink)
      (normalizeText influencerRow.handle) (normalizeText postDate) storeId
      (effectiveSourceType sourceType) (normalizeText externalKey) = none) :
    createOrUpdateBooking db storeId storeName influencerRow visitDate visitWindow
      serviceDetail videoRights postDate videoLink budgetWan notes sourceType externalKey
      aUS aUE now newId =
      ({ db with bookings := db.bookings ++
          [newBooking storeId storeName influencerRow visitDate visitWindow serviceDetail
            videoRights postDate videoLink budgetWan notes sourceType externalKey now newId] },
        newBooking storeId storeName influencerRow visitDate visitWindow serviceDetail
          videoRights postDate videoLink budgetWan notes sourceType externalKey now newId,
        true, false) := by
  simp only [createOrUpdateBooking, hfind, newBooking]

/-- `find_booking` succeeds exactly when one of its three applicable stages
has a matching row. -/
theorem findBooking_isSome_iff (bks : List Booking)
    (videoLink handle postDate storeId sourceType externalKey : Str) :
    (findBooking bks videoLink handle postDate storeId sourceType externalKey).isSome = true ↔
      (normalizeText externalKey ≠ [] ∧
        bks.any (importMatch (normalizeText externalKey)) = true) ∨
      (normalizeText videoLink ≠ [] ∧ bks.any (linkEq (normalizeText videoLink)) = true) ∨
      (normalizeText handle ≠ [] ∧ normalizeText storeId ≠ [] ∧
        normalizeText sourceType ≠ [] ∧
        bks.any (tupleMatch (normalizeText handle) (normalizeText postDate)
          (normalizeText storeId) (normalizeText sourceType)) = true) := by
  rw [findBooking_eq]
  by_cases h1 : normalizeText externalKey ≠ [] ∧
      bks.any (importMatch (normalizeText externalKey)) = true
  · rw [if_pos h1]
    exact iff_of_true (find?_isSome_of_any _ _ h1.2) (Or.inl h1)
  · rw [if_neg h1]
    by_cases h2 : normalizeText videoLink ≠ [] ∧
        bks.any (linkEq (normalizeText videoLink)) = true
    · rw [if_pos h2]
      exact iff_of_true (find?_isSome_of_any _ _ h2.2) (Or.inr (Or.inl h2))
    · rw [if_neg h2]
      by_cases h3 : normalizeText handle ≠ [] ∧ normalizeText storeId ≠ [] ∧
          normalizeText sourceType ≠ []
      · rw [if_pos h3]
        constructor
        · intro hs
          exact Or.inr (Or.inr ⟨h3.1, h3.2.1, h3.2.2, any_of_find?_isSome _ _ hs⟩)
        · rintro (hc | hc | hc)
          · exact absurd hc h1
          · exact absurd hc h2
          · exact find?_isSome_of_any _ _ hc.2.2.2
      · rw [if_neg h3]
        constructor
        · intro hs
          simp at hs
        · rintro (hc | hc | hc)
          · exact absurd hc h1
          · exact absurd hc h2
          · exact absurd ⟨hc.1, hc.2.1, hc.2.2.1⟩ h3

/-- A successful booking lookup stays successful after rows are appended. -/
theorem findBooking_isSome_append (bks more : List Booking)
    (videoLink handle postDate storeId sourceType externalKey : Str)
    (h : (findBooking bks videoLink handle postDate storeId sourceType
      externalKey).isSome = true) :
    (findBooking (bks ++ more) videoLink handle postDate storeId sourceType
      externalKey).isSome = true := by
  rw [findBooking_isSome_iff] at h ⊢
  have hany : ∀ q : Booking → Bool, bks.any q = true → (bks ++ more).any q = true := by
    intro q hq
    rw [List.any_append, hq, Bool.true_or]
  rcases h with ⟨a, b⟩ | ⟨a, b⟩ | ⟨a, b, c, d⟩
  · exact Or.inl ⟨a, hany _ b⟩
  · exact Or.inr (Or.inl ⟨a, hany _ b⟩)
  · exact Or.inr (Or.inr ⟨a, b, c, hany _ d⟩)

theorem rowFind_isSome_append (P : Params) (mode : Str) (bks suf : List Booking)
    (y : Option Nat × ImportRow) (h : (rowFind P mode bks y).isSome = true) :
    (rowFind P mode (bks ++ suf) y).isSome = true := by
  simp only [rowFind] at h ⊢
  exact findBooking_isSome_append _ _ _ _ _ _ _ _ h

theorem buildImportTag_ne_nil (k : Str) (h : normalizeText k ≠ []) :
    buildImportTag k ≠ [] := by
  unfold buildImportTag
  rw [if_pos h]
  simp

theorem likeContains_of_containsSub (pat s : Str) (h : containsSub pat s = true) :
    likeContains pat s = true := by
  unfold likeContains lowerStr
  exact containsSub_map lowerChar pat s h

/-- A freshly inserted booking whose key fields were derived from row `y` is
found again by `y`'s booking lookup: through the import key in walk-in mode,
the video link when one was supplied, and the fallback tuple otherwise. -/
theorem rowFind_appended (P : Params) (mode : Str) (y : Option Nat × ImportRow)
    (bks : List Booking) (b : Booking) (N : Str)
    (hbh : b.handle = rowHandle y)
    (hbp : b.postDate = rowPostDate y)
    (hbs : b.storeId = P.storeId)
    (hbt : b.sourceType = effectiveSourceType (rowSourceTypeArg P mode))
    (hbl : b.videoLink =
      (if normalizeText (rowExternalKey P mode y) ≠ [] &&
          normalizeText y.2.videoLink = [] then
        importPlaceholder (normalizeText (rowExternalKey P mode y))
      else normalizeText y.2.videoLink))
    (hbn : b.notes =
      tagNotes (buildImportTag (normalizeText (rowExternalKey P mode y))) N)
    (hy : normalizeText (rowHandle y) ≠ [])
    (hsid : normalizeText P.storeId = P.storeId) (hsne : P.storeId ≠ []) :
    (rowFind P mode (bks ++ [b]) y).isSome = true := by
  have hHn : normalizeText (rowHandle y) = rowHandle y :=
    parseTiktokHandle_norm y.2.profileUrl
  have hPn : normalizeText (rowPostDate y) = rowPostDate y :=
    parsePostDate_norm y.2.postDateRaw y.1 y.1
  simp only [rowFind]
  rw [findBooking_isSome_iff]
  by_cases hext : normalizeText (rowExternalKey P mode y) = []
  · by_cases hv : normalizeText y.2.videoLink = []
    · refine Or.inr (Or.inr ⟨?_, ?_, ?_, ?_⟩)
      · rw [normalizeText_idem]
        exact hy
      · rw [hsid]
        exact hsne
      · rw [(effectiveSourceType_norm (rowSourceTypeArg P mode)).1]
        exact (effectiveSourceType_norm (rowSourceTypeArg P mode)).2
      · refine List.any_eq_true.mpr ⟨b, by simp, ?_⟩
        unfold tupleMatch
        rw [normalizeText_idem, normalizeText_idem, hHn, hPn, hsid,
          (effectiveSourceType_norm (rowSourceTypeArg P mode)).1, hbh, hbp, hbs, hbt]
        simp
    · have hcond : ¬((normalizeText (rowExternalKey P mode y) ≠ [] &&
          normalizeText y.2.videoLink = []) = true) := by
        simp [hext]
      have hevl : (if normalizeText (rowExternalKey P mode y) ≠ [] &&
            normalizeText y.2.videoLink = [] then
          importPlaceholder (normalizeText (rowExternalKey P mode y))
        else normalizeText y.2.videoLink) = normalizeText y.2.videoLink := by
        rw [if_neg hcond]
      refine Or.inr (Or.inl ⟨?_, ?_⟩)
      · rw [hevl, normalizeText_idem]
        exact hv
      · refine List.any_eq_true.mpr ⟨b, by simp, ?_⟩
        unfold linkEq
        rw [hbl, hevl, normalizeText_idem]
        simp
  · refine Or.inl ⟨?_, ?_⟩
    · rw [normalizeText_idem]
      exact hext
    · refine List.any_eq_true.mpr ⟨b, by simp, ?_⟩
      rw [normalizeText_idem]
      unfold importMatch
      by_cases hv : normalizeText y.2.videoLink = []
      · rw [hbl, if_pos (by simp [hext, hv])]
        simp
      · have htag : buildImportTag (normalizeText (rowExternalKey P mode y)) ≠ [] :=
          buildImportTag_ne_nil _ (by rw [normalizeText_idem]; exact hext)
        have hsub : containsSub (buildImportTag (normalizeText (rowExternalKey P mode y)))
            b.notes = true := by
          rw [hbn]
          exact tag_in_tagNotes _ _ htag
        rw [likeContains_of_containsSub _ _ hsub]
        simp

/-- One first-run step with no update flags: the influencer table keeps every
handle and gains the row's handle, the bookings table only grows, and
afterwards the row's booking lookup succeeds. -/
theorem reconcileRow_run1 (P : Params) (mode : Str) (st : RState)
    (y : Option Nat × ImportRow)
    (hus : P.updateStore = false) (hue : P.updateExisting = false)
    (hsid : normalizeText P.storeId = P.storeId) (hsne : P.storeId ≠ [])
    (hy : normalizeText (rowHandle y) ≠ []) :
    (∀ g, hasHandle st.db.influencers g = true →
      hasHandle (reconcileRow P mode st y).db.influencers g = true) ∧
    hasHandle (reconcileRow P mode st y).db.influencers (rowHandle y) = true ∧
    (∃ suf, (reconcileRow P mode st y).db.bookings = st.db.bookings ++ suf) ∧
    (rowFind P mode (reconcileRow P mode st y).db.bookings y).isSome = true := by
  obtain ⟨hImono, hIseen⟩ := createOrPatchInfluencer_table st.db.influencers (rowHandle y)
    y.2.contactRaw y.2.profileUrl [] P.now (genId ("inf".toList) st.ctr) hy
  have hhd := createOrPatchInfluencer_handle st.db.influencers (rowHandle y)
    y.2.contactRaw y.2.profileUrl [] P.now (genId ("inf".toList) st.ctr)
  cases hval : rowFind P mode st.db.bookings y with
  | some ex =>
    have hsome : (rowFind P mode st.db.bookings y).isSome = true := by
      rw [hval]
      rfl
    simp only [rowFind] at hval
    rw [← hhd] at hval
    have hB := createOrUpdateBooking_flags_off
      { st.db with influencers := (createOrPatchInfluencer st.db.influencers (rowHandle y)
          y.2.contactRaw y.2.profileUrl [] P.now (genId ("inf".toList) st.ctr)).1 }
      P.storeId P.storeName
      (createOrPatchInfluencer st.db.influencers (rowHandle y) y.2.contactRaw y.2.profileUrl
        [] P.now (genId ("inf".toList) st.ctr)).2.1
      (rowVwnb mode y).1 (rowVwnb mode y).2.1 y.2.serviceDetail y.2.videoRights
      (rowPostDate y) y.2.videoLink (rowVwnb mode y).2.2.2 (rowVwnb mode y).2.2.1
      (rowSourceTypeArg P mode) (rowExternalKey P mode y) P.now
      (genId ("bk".toList) (st.ctr + 1)) ex hval
    have hinf : (reconcileRow P mode st y).db.influencers =
        (createOrPatchInfluencer st.db.influencers (rowHandle y) y.2.contactRaw
          y.2.profileUrl [] P.now (genId ("inf".toList) st.ctr)).1 := by
      simp only [reconcileRow, hus, hue, hB]
    have hdb : (reconcileRow P mode st y).db.bookings = st.db.bookings := by
      simp only [reconcileRow, hus, hue, hB]
    refine ⟨fun g hg => by rw [hinf]; exact hImono g hg,
      by rw [hinf]; exact hIseen, ⟨[], by rw [hdb, List.append_nil]⟩, ?_⟩
    rw [hdb]
    exact hsome
  | none =>
    simp only [rowFind] at hval
    rw [← hhd] at hval
    have hB := createOrUpdateBooking_not_found
      { st.db with influencers := (createOrPatchInfluencer st.db.influencers (rowHandle y)
          y.2.contactRaw y.2.profileUrl [] P.now (genId ("inf".toList) st.ctr)).1 }
      P.storeId P.storeName
      (createOrPatchInfluencer st.db.influencers (rowHandle y) y.2.contactRaw y.2.profileUrl
        [] P.now (genId ("inf".toList) st.ctr)).2.1
      (rowVwnb mode y).1 (rowVwnb mode y).2.1 y.2.serviceDetail y.2.videoRights
      (rowPostDate y) y.2.videoLink (rowVwnb mode y).2.2.2 (rowVwnb mode y).2.2.1
      (rowSourceTypeArg P mode) (rowExternalKey P mode y) false false P.now
      (genId ("bk".toList) (st.ctr + 1)) hval
    have hinf : (reconcileRow P mode st y).db.influencers =
        (createOrPatchInfluencer st.db.influencers (rowHandle y) y.2.contactRaw
          y.2.profileUrl [] P.now (genId ("inf".toList) st.ctr)).1 := by
      simp only [reconcileRow, hus, hue, hB]
    have hdb : (reconcileRow P mode st y).db.bookings = st.db.bookings ++
        [newBooking P.storeId P.storeName
          (createOrPatchInfluencer st.db.influencers (rowHandle y) y.2.contactRaw
            y.2.profileUrl [] P.now (genId ("inf".toList) st.ctr)).2.1
          (rowVwnb mode y).1 (rowVwnb mode y).2.1 y.2.serviceDetail y.2.videoRights
          (rowPostDate y) y.2.videoLink (rowVwnb mode y).2.2.2 (rowVwnb mode y).2.2.1
          (rowSourceTypeArg P mode) (rowExternalKey P mode y) P.now
          (genId ("bk".toList) (st.ctr + 1))] := by
      simp only [reconcileRow, hus, hue, hB]
    refine ⟨fun g hg => by rw [hinf]; exact hImono g hg,
      by rw [hinf]; exact hIseen, ⟨_, hdb⟩, ?_⟩
    rw [hdb]
    exact rowFind_appended P mode y st.db.bookings _
      (normalizeText ((rowVwnb mode y).2.2.1)) hhd rfl rfl rfl rfl rfl hy hsid hsne

set_option maxHeartbeats 1000000 in
/-- A second-run step: when the row's handle is already in the influencer
table and its booking lookup already succeeds, the step (with no update
flags) creates nothing — bookings stay untouched and the row is counted as a
skipped duplicate. -/
theorem reconcileRow_skips (P : Params) (mode : Str) (st : RState)
    (y : Option Nat × ImportRow)
    (hus : P.updateStore = false) (hue : P.updateExisting = false)
    (hy : normalizeText (rowHandle y) ≠ [])
    (hInf : hasHandle st.db.influencers (rowHandle y) = true)
    (hBk : (rowFind P mode st.db.bookings y).isSome = true) :
    (reconcileRow P mode st y).db.bookings = st.db.bookings ∧
    (∀ g, hasHandle st.db.influencers g = true →
      hasHandle (reconcileRow P mode st y).db.influencers g = true) ∧
    (reconcileRow P mode st y).stats.influencersCreated = st.stats.influencersCreated ∧
    (reconcileRow P mode st y).stats.bookingsCreated = st.stats.bookingsCreated ∧
    (reconcileRow P mode st y).stats.bookingsSkipped = st.stats.bookingsSkipped + 1 := by
  obtain ⟨hImono, -⟩ := createOrPatchInfluencer_table st.db.influencers (rowHandle y)
    y.2.contactRaw y.2.profileUrl [] P.now (genId ("inf".toList) st.ctr) hy
  have hhd := createOrPatchInfluencer_handle st.db.influencers (rowHandle y)
    y.2.contactRaw y.2.profileUrl [] P.now (genId ("inf".toList) st.ctr)
  have hci := createOrPatchInfluencer_found_created st.db.influencers (rowHandle y)
    y.2.contactRaw y.2.profileUrl [] P.now (genId ("inf".toList) st.ctr)
    (findInfluencerByHandle_isSome _ _ (ne_nil_of_normalizeText _ hy) hInf)
  obtain ⟨ex, hval⟩ := Option.isSome_iff_exists.mp hBk
  simp only [rowFind] at hval
  rw [← hhd] at hval
  have hB := createOrUpdateBooking_flags_off
    { st.db with influencers := (createOrPatchInfluencer st.db.influencers (rowHandle y)
        y.2.contactRaw y.2.profileUrl [] P.now (genId ("inf".toList) st.ctr)).1 }
    P.storeId P.storeName
    (createOrPatchInfluencer st.db.influencers (rowHandle y) y.2.contactRaw y.2.profileUrl
      [] P.now (genId ("inf".toList) st.ctr)).2.1
    (rowVwnb mode y).1 (rowVwnb mode y).2.1 y.2.serviceDetail y.2.videoRights
    (rowPostDate y) y.2.videoLink (rowVwnb mode y).2.2.2 (rowVwnb mode y).2.2.1
    (rowSourceTypeArg P mode) (rowExternalKey P mode y) P.now
    (genId ("bk".toList) (st.ctr + 1)) ex hval
  have hinf : (reconcileRow P mode st y).db.influencers =
      (createOrPatchInfluencer st.db.influencers (rowHandle y) y.2.contactRaw
        y.2.profileUrl [] P.now (genId ("inf".toList) st.ctr)).1 := by
    simp only [reconcileRow, hus, hue, hB]
  have hfe : ((false : Bool) = true) = False := by simp
  refine ⟨?_, fun g hg => by rw [hinf]; exact hImono g hg, ?_, ?_, ?_⟩
  · simp only [reconcileRow, hus, hue, hB]
  · simp only [reconcileRow, hus, hue, hB, hci, hfe, if_false]
    repeat' split
    all_goals rfl
  · simp only [reconcileRow, hus, hue, hB, hci, hfe, if_false]
    repeat' split
    all_goals rfl
  · simp only [reconcileRow, hus, hue, hB, hci, hfe, if_false]
    repeat' split
    all_goals rfl

/-- Over a whole first run, handles already in the influencer table survive
and the bookings table only grows. -/
theorem runFold_mono (P : Params) (mode : Str)
    (hus : P.updateStore = false) (hue : P.updateExisting = false)
    (hsid : normalizeText P.storeId = P.storeId) (hsne : P.storeId ≠ []) :
    ∀ (l : List (Option Nat × ImportRow)) (st : RState),
      (∀ x ∈ l, normalizeText (rowHandle x) ≠ []) →
      (∀ g, hasHandle st.db.influencers g = true →
        hasHandle (l.foldl (reconcileRow P mode) st).db.influencers g = true) ∧
      (∃ suf, (l.foldl (reconcileRow P mode) st).db.bookings = st.db.bookings ++ suf) := by
  intro l
  induction l with
  | nil => exact fun st _ => ⟨fun g hg => hg, ⟨[], (List.append_nil _).symm⟩⟩
  | cons y l ih =>
    intro st hall
    have hy := hall y (List.mem_cons_self y l)
    obtain ⟨hmono, -, ⟨suf1, hsuf1⟩, -⟩ := reconcileRow_run1 P mode st y hus hue hsid hsne hy
    obtain ⟨hmono2, ⟨suf2, hsuf2⟩⟩ := ih (reconcileRow P mode st y)
      (fun z hz => hall z (List.mem_cons_of_mem y hz))
    rw [List.foldl_cons]
    exact ⟨fun g hg => hmono2 g (hmono g hg),
      ⟨suf1 ++ suf2, by rw [hsuf2, hsuf1, List.append_assoc]⟩⟩

/-- After a whole first run (no update flags), every processed row's handle
is in the influencer table and every processed row's booking lookup
succeeds against the final bookings table. -/
theorem runFold_establishes (P : Params) (mode : Str)
    (hus : P.updateStore = false) (hue : P.updateExisting = false)
    (hsid : normalizeText P.storeId = P.storeId) (hsne : P.storeId ≠ []) :
    ∀ (l : List (Option Nat × ImportRow)) (st : RState),
      (∀ x ∈ l, normalizeText (rowHandle x) ≠ []) →
      ∀ x ∈ l,
        hasHandle (l.foldl (reconcileRow P mode) st).db.influencers (rowHandle x) = true ∧
        (rowFind P mode (l.foldl (reconcileRow P mode) st).db.bookings x).isSome = true := by
  intro l
  induction l with
  | nil => exact fun st _ x hx => absurd hx (List.not_mem_nil x)
  | cons y l ih =>
    intro st hall x hx
    rw [List.foldl_cons]
    rcases List.mem_cons.mp hx with rfl | hx'
    · have hy := hall x (List.mem_cons_self x l)
      obtain ⟨-, hseen, -, hfound⟩ := reconcileRow_run1 P mode st x hus hue hsid hsne hy
      obtain ⟨hmono, ⟨suf, hsuf⟩⟩ := runFold_mono P mode hus hue hsid hsne l
        (reconcileRow P mode st x) (fun z hz => hall z (List.mem_cons_of_mem x hz))
      refine ⟨hmono _ hseen, ?_⟩
      rw [hsuf]
      exact rowFind_isSome_append P mode _ suf x hfound
    · exact ih (reconcileRow P mode st y)
        (fun z hz => hall z (List.mem_cons_of_mem y hz)) x hx'

/-- A whole second run over rows whose handles and bookings all resolve:
bookings untouched, no influencer or booking creations, and every record
counted as a skipped duplicate. -/
theorem runFold_skips (P : Params) (mode : Str)
    (hus : P.updateStore = false) (hue : P.updateExisting = false) :
    ∀ (l : List (Option Nat × ImportRow)) (st : RState),
      (∀ x ∈ l, normalizeText (rowHandle x) ≠ []) →
      (∀ x ∈ l, hasHandle st.db.influencers (rowHandle x) = true) →
      (∀ x ∈ l, (rowFind P mode st.db.bookings x).isSome = true) →
      (l.foldl (reconcileRow P mode) st).db.bookings = st.db.bookings ∧
      (l.foldl (reconcileRow P mode) st).stats.influencersCreated =
        st.stats.influencersCreated ∧
      (l.foldl (reconcileRow P mode) st).stats.bookingsCreated =
        st.stats.bookingsCreated ∧
      (l.foldl (reconcileRow P mode) st).stats.bookingsSkipped =
        st.stats.bookingsSkipped + l.length := by
  intro l
  induction l with
  | nil => exact fun st _ _ _ => ⟨rfl, rfl, rfl, by simp⟩
  | cons y l ih =>
    intro st hall hinf hbk
    have hy := hall y (List.mem_cons_self y l)
    obtain ⟨hdb, hmono, hic, hbc, hbs⟩ := reconcileRow_skips P mode st y hus hue hy
      (hinf y (List.mem_cons_self y l)) (hbk y (List.mem_cons_self y l))
    obtain ⟨hdb', hic', hbc', hbs'⟩ := ih (reconcileRow P mode st y)
      (fun z hz => hall z (List.mem_cons_of_mem y hz))
      (fun z hz => hmono _ (hinf z (List.mem_cons_of_mem y hz)))
      (fun z hz => by rw [hdb]; exact hbk z (List.mem_cons_of_mem y hz))
    rw [List.foldl_cons]
    refine ⟨by rw [hdb', hdb], by rw [hic', hic], by rw [hbc', hbc], ?_⟩
    rw [hbs', hbs, List.length_cons]
    omega

/-- C1 (counterexample): the full import is NOT unconditionally idempotent.
A row whose profile cell yields no parseable handle re-creates its influencer
and its booking on the second run (the empty handle matches nothing and the
fallback tuple is skipped); and on a walk-in sheet where two rows share a
sequence number (hence an external key), a second run creates a fresh
traffic snapshot even though every row's handle parses — the first row's
snapshot is attached to a pre-existing link-matched booking while the second
run resolves the row to the booking created from the placeholder. -/
theorem import_idempotence_counterexample :
    ((runImport cexParams cexRowsNoHandle
        (runImport cexParams cexRowsNoHandle ⟨[], [], []⟩ 0).db 100).stats.influencersCreated
          = 1 ∧
      (runImport cexParams cexRowsNoHandle
        (runImport cexParams cexRowsNoHandle ⟨[], [], []⟩ 0).db 100).stats.bookingsCreated
          = 1) ∧
    ((∀ x ∈ extractImportRows cexRowsSharedKey, normalizeText (rowHandle x) ≠ []) ∧
      cexParams.updateStore = false ∧ cexParams.updateExisting = false ∧
      (runImport cexParams cexRowsSharedKey
        (runImport cexParams cexRowsSharedKey ⟨[], [cexBookingL], []⟩ 0).db
          100).stats.trafficCreated = 1) := by
  decide

/-- C1 (amended): with no update flags set, a store id that is non-empty and
strip-invariant, and every extracted row carrying a parseable TikTok handle,
a second run of the import over the same source and resulting state creates
zero influencers and zero bookings — the bookings table is left unchanged and
every extracted record resolves to an existing row and is counted as a
skipped no-op duplicate.  (A second run may still create or update traffic
snapshots, and rows without a parseable handle are re-created each run.) -/
theorem import_second_run_no_creates (P : Params) (rows : List (List Str)) (db : DB)
    (ctr ctr' : Nat)
    (hus : P.updateStore = false) (hue : P.updateExisting = false)
    (hsid : normalizeText P.storeId = P.storeId) (hsne : P.storeId ≠ [])
    (hh : ∀ x ∈ extractImportRows rows, normalizeText (rowHandle x) ≠ []) :
    (runImport P rows (runImport P rows db ctr).db ctr').stats.influencersCreated = 0 ∧
    (runImport P rows (runImport P rows db ctr).db ctr').stats.bookingsCreated = 0 ∧
    (runImport P rows (runImport P rows db ctr).db ctr').stats.bookingsSkipped =
      (extractImportRows rows).length ∧
    (runImport P rows (runImport P rows db ctr).db ctr').db.bookings =
      (runImport P rows db ctr).db.bookings := by
  have hEst := runFold_establishes P (probeSheetMode rows) hus hue hsid hsne
    (extractImportRows rows) ⟨db, zeroStats, ctr⟩ hh
  have hSk := runFold_skips P (probeSheetMode rows) hus hue
    (extractImportRows rows) ⟨(runImport P rows db ctr).db, zeroStats, ctr'⟩ hh
    (fun x hx => (hEst x hx).1) (fun x hx => (hEst x hx).2)
  obtain ⟨hbooks, hic, hbc, hbs⟩ := hSk
  refine ⟨?_, ?_, ?_, ?_⟩
  · exact hic
  · exact hbc
  · exact hbs.trans (by simp [zeroStats])
  · exact hbooks

/-- C1 witness: the amended second-run guarantee at a concrete two-row
walk-in sheet whose rows both carry parseable handles. -/
theorem import_second_run_no_creates_witness :
    (runImport cexParams cexRowsSharedKey
      (runImport cexParams cexRowsSharedKey ⟨[], [], []⟩ 0).db 7).stats.influencersCreated
        = 0 ∧
    (runImport cexParams cexRowsSharedKey
      (runImport cexParams cexRowsSharedKey ⟨[], [], []⟩ 0).db 7).stats.bookingsCreated
        = 0 ∧
    (runImport cexParams cexRowsSharedKey
      (runImport cexParams cexRowsSharedKey ⟨[], [], []⟩ 0).db 7).stats.bookingsSkipped =
      (extractImportRows cexRowsSharedKey).length ∧
    (runImport cexParams cexRowsSharedKey
      (runImport cexParams cexRowsSharedKey ⟨[], [], []⟩ 0).db 7).db.bookings =
      (runImport cexParams cexRowsSharedKey ⟨[], [], []⟩ 0).db.bookings :=
  import_second_run_no_creates cexParams cexRowsSharedKey ⟨[], [], []⟩ 0 7 rfl rfl
    (by decide) (by decide) (by decide)

end GSheetImport
